import Mathlib

/-!
# ISP source element (`gst/rkv4l2/ispsrc.c`)

A shallow embedding of the capability negotiation, format fixation, latency
query, frame time-stamping and sequence tracking of the ISP source element,
followed by theorems about them.

Machine integers are modelled by `Int` (`gint`) and `Nat` (`guint64`,
`GstClockTime`) with explicit reduction modulo `2 ^ 64` where the C code
computes in unsigned 64-bit arithmetic.
-/

namespace ISPSrc

/-! ## Machine constants -/

/-- Largest `gint`. -/
def G_MAXINT : Int := 2147483647

/-- Smallest `gint`. -/
def G_MININT : Int := -2147483648

/-- Modulus of `guint64` arithmetic. -/
def U64 : Nat := 2 ^ 64

/-- The value `GST_CLOCK_TIME_NONE` (all bits set). -/
def GST_CLOCK_TIME_NONE : Nat := 2 ^ 64 - 1

/-- The value `GST_BUFFER_OFFSET_NONE` (all bits set). -/
def GST_BUFFER_OFFSET_NONE : Nat := 2 ^ 64 - 1

/-- One second in `GstClockTime` units (nanoseconds). -/
def GST_SECOND : Nat := 1000000000

/-- Unsigned 64-bit addition. -/
def u64add (a b : Nat) : Nat := (a + b) % U64

/-- Unsigned 64-bit subtraction. -/
def u64sub (a b : Nat) : Nat := (a + (U64 - b % U64)) % U64

/-- Unsigned 64-bit multiplication. -/
def u64mul (a b : Nat) : Nat := (a * b) % U64

/-- The macro `GST_CLOCK_TIME_IS_VALID`. -/
def GST_CLOCK_TIME_IS_VALID (t : Nat) : Bool := t != GST_CLOCK_TIME_NONE

/-! ## Capabilities -/

/-- The value of an integer field of a structure: a fixed `gint`, an integer
range or a list of integers. -/
inductive IntValue where
  | fixed (v : Int)
  | range (lo hi : Int)
  | list (vs : List Int)
  deriving DecidableEq, Repr

/-- The value of a fraction field: a fixed fraction `n/d`, a fraction range or
a list of fractions. -/
inductive FracValue where
  | fixed (n d : Int)
  | range (lo_n lo_d hi_n hi_d : Int)
  | list (vs : List (Int × Int))
  deriving DecidableEq, Repr

/-- The value of a string-like field (pixel format, interlace mode): a fixed
value or a list of alternatives. -/
inductive StrValue where
  | fixed (s : String)
  | list (ss : List String)
  deriving DecidableEq, Repr

/-- One format descriptor (`GstStructure`) with the five fields the element
looks at. A field that is `none` is absent from the structure, that is,
unconstrained. -/
structure GstStructure where
  width : Option IntValue
  height : Option IntValue
  framerate : Option FracValue
  format : Option StrValue
  interlace_mode : Option StrValue
  deriving DecidableEq, Repr

/-- A capability set (`GstCaps`): either the ANY caps or an ordered list of
structures; the empty list is the EMPTY caps. -/
inductive GstCaps where
  | any
  | structs (l : List GstStructure)
  deriving DecidableEq, Repr

/-- The library call `gst_structure_get_int` on a field: it succeeds only when
the field is present and holds a fixed integer. -/
def gst_structure_get_int : Option IntValue → Option Int
  | some (IntValue.fixed v) => some v
  | _ => none

/-- The library call `gst_caps_is_any`. -/
def gst_caps_is_any : GstCaps → Bool
  | GstCaps.any => true
  | GstCaps.structs _ => false

/-- The library call `gst_caps_is_empty`. -/
def gst_caps_is_empty : GstCaps → Bool
  | GstCaps.any => false
  | GstCaps.structs l => l.isEmpty

/-- The library call `gst_caps_get_size`. -/
def gst_caps_get_size : GstCaps → Nat
  | GstCaps.any => 0
  | GstCaps.structs l => l.length

/-- The library call `gst_caps_get_structure`; `none` stands for the NULL it
gives for an index out of range. -/
def gst_caps_get_structure : GstCaps → Nat → Option GstStructure
  | GstCaps.any, _ => none
  | GstCaps.structs l, i => l[i]?

/-- The library call `gst_caps_copy_nth`: new caps with the flags of the
original and the `nth` structure alone, when there is one. -/
def gst_caps_copy_nth : GstCaps → Nat → GstCaps
  | GstCaps.any, _ => GstCaps.any
  | GstCaps.structs l, nth => GstCaps.structs (l[nth]?).toList

/-- The library call `gst_caps_truncate`: drop every structure but the first. -/
def gst_caps_truncate : GstCaps → GstCaps
  | GstCaps.any => GstCaps.any
  | GstCaps.structs l => GstCaps.structs (l.take 1)

/-! ## The tie-break of `gst_ispsrc_negotiate` -/

/-- The locals `width`, `height` and `best` of the tie-break. -/
structure ScanState where
  width : Int
  height : Int
  best : Nat
  deriving DecidableEq, Repr

/-- Body of the backwards `for` loop of `gst_ispsrc_negotiate` at index `i`. -/
def scan_body (icaps : GstCaps) (twidth theight : Int) (i : Nat)
    (st : ScanState) : ScanState :=
  match gst_caps_get_structure icaps i with
  | none => st
  | some is =>
    match gst_structure_get_int is.width, gst_structure_get_int is.height with
    | some w, some h =>
      if w ≥ twidth ∧ w ≤ st.width ∧ h ≥ theight ∧ h ≤ st.height then
        { width := w, height := h, best := i }
      else st
    | _, _ => st

/-- The loop `for (i = n - 1; i >= 0; i--)` of `gst_ispsrc_negotiate`: `n`
counts the indices still to visit. -/
def scan_loop (icaps : GstCaps) (twidth theight : Int) : Nat → ScanState → ScanState
  | 0, st => st
  | n + 1, st => scan_loop icaps twidth theight n (scan_body icaps twidth theight n st)

/-- The value of `best` when `gst_caps_copy_nth (icaps, best)` is reached in
`gst_ispsrc_negotiate`. -/
def negotiate_best (peercaps icaps : GstCaps) : Nat :=
  let s := gst_caps_get_structure peercaps 0
  match gst_structure_get_int (s.bind (·.width)),
        gst_structure_get_int (s.bind (·.height)) with
  | some twidth, some theight =>
    (scan_loop icaps twidth theight (gst_caps_get_size icaps)
      { width := G_MAXINT, height := G_MAXINT, best := 0 }).best
  | _, _ => 0

/-- The block of `gst_ispsrc_negotiate` run on a non-NULL intersection: with
more than one structure the tie-break picks one, otherwise the intersection is
kept. -/
def negotiate_select (peercaps icaps : GstCaps) : GstCaps :=
  if gst_caps_get_size icaps > 1 then
    gst_caps_copy_nth icaps (negotiate_best peercaps icaps)
  else icaps

/-! ### Vocabulary for the tie-break theorems -/

/-- Fixed integer width and height of a structure, when it has both. -/
def dims (e : GstStructure) : Option (Int × Int) :=
  match gst_structure_get_int e.width, gst_structure_get_int e.height with
  | some w, some h => some (w, h)
  | _, _ => none

/-- An entry qualifies for the preference `(tw, th)` when it has fixed integer
width and height with `width ≥ tw` and `height ≥ th`. -/
def qualifies (tw th : Int) (e : GstStructure) : Bool :=
  match dims e with
  | some (w, h) => decide (tw ≤ w) && decide (th ≤ h)
  | none => false

/-- The product width × height of an entry (0 when it has no fixed size). -/
def area (e : GstStructure) : Int :=
  match dims e with
  | some (w, h) => w * h
  | none => 0

/-- Every fixed integer width and height of the entry is a `gint`. -/
def gintSized (e : GstStructure) : Prop :=
  ∀ w h, dims e = some (w, h) → (w ≤ G_MAXINT ∧ h ≤ G_MAXINT)

/-- A structure with fixed integer width and height and nothing else. -/
def sized (w h : Int) : GstStructure :=
  { width := some (IntValue.fixed w), height := some (IntValue.fixed h),
    framerate := none, format := none, interlace_mode := none }

/-! ## `gst_ispsrc_fixate` -/

/-- The library call `gst_structure_fixate_field_nearest_int` on the value of a
present field: a fixed value is left alone, a range yields the target clamped
to it, a list yields its first entry at the least distance from the target. -/
def gst_structure_fixate_field_nearest_int (v : IntValue) (target : Int) : IntValue :=
  match v with
  | IntValue.fixed x => IntValue.fixed x
  | IntValue.range lo hi =>
    let t := if target < lo then lo else target
    let t := if t > hi then hi else t
    IntValue.fixed t
  | IntValue.list vs =>
    match vs.foldl (fun (best : Option Int) (x : Int) =>
        match best with
        | none => some x
        | some b => if |target - x| < |target - b| then some x else some b) none with
    | some b => IntValue.fixed b
    | none => IntValue.list vs

/-- The library call `gst_util_fraction_compare` as a three-way comparison of
`a_n/a_d` with `b_n/b_d` by cross multiplication. -/
def gst_util_fraction_compare (a_n a_d b_n b_d : Int) : Ordering :=
  compare (a_n * b_d) (b_n * a_d)

/-- Distance between two fractions, as a rational number. The library computes
this distance in double precision; the model keeps it exact. -/
def fraction_distance (t_n t_d n d : Int) : ℚ :=
  |(t_n : ℚ) / (t_d : ℚ) - (n : ℚ) / (d : ℚ)|

/-- The library call `gst_structure_fixate_field_nearest_fraction` on the value
of a present field. -/
def gst_structure_fixate_field_nearest_fraction (v : FracValue) (t_n t_d : Int) : FracValue :=
  match v with
  | FracValue.fixed n d => FracValue.fixed n d
  | FracValue.range lo_n lo_d hi_n hi_d =>
    let new_value : Int × Int := (t_n, t_d)
    let new_value :=
      if gst_util_fraction_compare t_n t_d lo_n lo_d = Ordering.lt then (lo_n, lo_d)
      else new_value
    let new_value :=
      if gst_util_fraction_compare t_n t_d hi_n hi_d = Ordering.gt then (hi_n, hi_d)
      else new_value
    FracValue.fixed new_value.1 new_value.2
  | FracValue.list vs =>
    match vs.foldl (fun (best : Option (Int × Int)) (x : Int × Int) =>
        match best with
        | none => some x
        | some b =>
          if fraction_distance t_n t_d x.1 x.2 < fraction_distance t_n t_d b.1 b.2 then some x
          else some b) none with
    | some b => FracValue.fixed b.1 b.2
    | none => FracValue.list vs

/-- The library call `gst_structure_fixate_field` on a string-like field: a
list is replaced by its first entry. -/
def gst_structure_fixate_field (v : StrValue) : StrValue :=
  match v with
  | StrValue.fixed s => StrValue.fixed s
  | StrValue.list [] => StrValue.list []
  | StrValue.list (s :: _) => StrValue.fixed s

/-- Default fixation of an integer value (`gst_value_fixate`): a range gives
its minimum, a list its first entry. -/
def gst_value_fixate_int (v : IntValue) : IntValue :=
  match v with
  | IntValue.fixed x => IntValue.fixed x
  | IntValue.range lo _ => IntValue.fixed lo
  | IntValue.list [] => IntValue.list []
  | IntValue.list (x :: _) => IntValue.fixed x

/-- Default fixation of a fraction value (`gst_value_fixate`). -/
def gst_value_fixate_fraction (v : FracValue) : FracValue :=
  match v with
  | FracValue.fixed n d => FracValue.fixed n d
  | FracValue.range lo_n lo_d _ _ => FracValue.fixed lo_n lo_d
  | FracValue.list [] => FracValue.list []
  | FracValue.list (x :: _) => FracValue.fixed x.1 x.2

/-- The library call `gst_structure_fixate`: default fixation of every present
field. -/
def gst_structure_fixate (s : GstStructure) : GstStructure :=
  { width := s.width.map gst_value_fixate_int,
    height := s.height.map gst_value_fixate_int,
    framerate := s.framerate.map gst_value_fixate_fraction,
    format := s.format.map gst_structure_fixate_field,
    interlace_mode := s.interlace_mode.map gst_structure_fixate_field }

/-- The library call `gst_caps_fixate`, which is what the parent class does in
its `fixate`: truncate to the first structure and fixate it. The ANY caps are
refused (`none` stands for the NULL that is returned). -/
def gst_base_src_default_fixate : GstCaps → Option GstCaps
  | GstCaps.any => none
  | GstCaps.structs [] => some (GstCaps.structs [])
  | GstCaps.structs (s :: _) => some (GstCaps.structs [gst_structure_fixate s])

/-- Body of the `for` loop of `gst_ispsrc_fixate` on one structure: each of the
five fields is fixated only if the structure has it. -/
def fixate_structure (s : GstStructure) : GstStructure :=
  { width := s.width.map (fun v => gst_structure_fixate_field_nearest_int v 320),
    height := s.height.map (fun v => gst_structure_fixate_field_nearest_int v 200),
    framerate := s.framerate.map (fun v => gst_structure_fixate_field_nearest_fraction v 100 1),
    format := s.format.map gst_structure_fixate_field,
    interlace_mode := s.interlace_mode.map gst_structure_fixate_field }

/-- The function `gst_ispsrc_fixate`: the loop over all structures of the caps
(none for the ANY caps, whose size is 0), then the parent class fixation. -/
def gst_ispsrc_fixate (caps : GstCaps) : Option GstCaps :=
  match caps with
  | GstCaps.any => gst_base_src_default_fixate GstCaps.any
  | GstCaps.structs l => gst_base_src_default_fixate (GstCaps.structs (l.map fixate_structure))

/-- A present integer field holds a single value. -/
def IntValue.isFixed : IntValue → Bool
  | IntValue.fixed _ => true
  | _ => false

/-- A present fraction field holds a single value. -/
def FracValue.isFixed : FracValue → Bool
  | FracValue.fixed _ _ => true
  | _ => false

/-- A present string-like field holds a single value. -/
def StrValue.isFixed : StrValue → Bool
  | StrValue.fixed _ => true
  | _ => false

/-- The library call `gst_structure_foreach (s, gst_caps_is_fixed_foreach)`:
every present field holds a single value. -/
def gst_structure_is_fixed (s : GstStructure) : Bool :=
  (s.width.all IntValue.isFixed) && (s.height.all IntValue.isFixed) &&
  (s.framerate.all FracValue.isFixed) && (s.format.all StrValue.isFixed) &&
  (s.interlace_mode.all StrValue.isFixed)

/-- The library call `gst_caps_is_fixed`: exactly one structure, and it is
fixed. -/
def gst_caps_is_fixed : GstCaps → Bool
  | GstCaps.structs [s] => gst_structure_is_fixed s
  | _ => false

/-! ## `gst_ispsrc_negotiate` -/

/-- What a call of `gst_ispsrc_negotiate` did: the value returned and the caps
handed to `gst_base_src_set_caps`, in order (none when it was not called). -/
structure NegotiateResult where
  result : Bool
  set_caps_calls : List GstCaps
  deriving DecidableEq, Repr

/-- The function `gst_ispsrc_negotiate`. `thiscaps` is the answer of
`gst_pad_query_caps` and `peercaps` the answer the peer gives to
`gst_pad_peer_query_caps` (`none` for NULL); `intersect` stands for
`gst_caps_intersect_full (_, _, GST_CAPS_INTERSECT_FIRST)` and `set_caps` for
`gst_base_src_set_caps`. -/
def gst_ispsrc_negotiate (thiscaps peercaps : Option GstCaps)
    (intersect : GstCaps → GstCaps → Option GstCaps) (set_caps : GstCaps → Bool) :
    NegotiateResult :=
  match thiscaps with
  | none => { result := true, set_caps_calls := [] }
  | some t =>
    if gst_caps_is_any t then { result := true, set_caps_calls := [] }
    else
      let caps : Option GstCaps :=
        match peercaps with
        | some p =>
          if !gst_caps_is_any p then
            match intersect p t with
            | some icaps => some (negotiate_select p icaps)
            | none => none
          else some t
        | none => some t
      match caps with
      | none => { result := false, set_caps_calls := [] }
      | some c =>
        let c := gst_caps_truncate c
        if !gst_caps_is_empty c then
          match gst_ispsrc_fixate c with
          | none => { result := false, set_caps_calls := [] }
          | some f =>
            if gst_caps_is_any f then { result := true, set_caps_calls := [] }
            else if gst_caps_is_fixed f then { result := set_caps f, set_caps_calls := [f] }
            else { result := false, set_caps_calls := [] }
        else { result := false, set_caps_calls := [] }

/-! ## Element state and the backend -/

/-- The fields of `GstISPSrc` the element reads and writes; `offset`,
`renegotiation_adjust`, `last_timestamp` and `ctrl_time` are `guint64`. -/
structure GstISPSrc where
  offset : Nat
  renegotiation_adjust : Nat
  pending_set_fmt : Bool
  has_bad_timestamp : Bool
  last_timestamp : Nat
  ctrl_time : Nat
  deriving DecidableEq, Repr

/-- The answers of the device backend (`GstV4l2Object`, its pool) and of the
parent class during one call of an element method. `base_src_allocator` and
`base_src_pool` are the handles `gst_base_src_get_allocator` and
`gst_base_src_get_buffer_pool` give (`none` for NULL), `info_size` is
`v4l2object->info.size`. -/
structure Backend where
  caps_equal : Bool
  is_active : Bool
  try_format_ok : Bool
  stop_ok : Bool
  set_format_ok : Bool
  pool_is_active : Bool
  n_allocation_params : Nat
  n_allocation_pools : Nat
  base_src_allocator : Option Nat
  base_src_pool : Option Nat
  info_size : Nat
  v4l2_decide_ok : Bool
  parent_decide_ok : Bool
  set_active_ok : Bool
  unlock_ok : Bool
  unlock_stop_ok : Bool
  deriving DecidableEq, Repr

/-- The calls an element method issues to its collaborators, in order. -/
inductive Call where
  | v4l2_object_try_format
  | v4l2_object_stop
  | prepare_format_signal
  | v4l2_object_set_format
  | v4l2_error
  | query_set_nth_allocation_param (index : Nat) (allocator : Option Nat)
  | query_add_allocation_param (allocator : Option Nat)
  | query_set_nth_allocation_pool (index : Nat) (pool : Option Nat)
      (size min_buffers max_buffers : Nat)
  | query_add_allocation_pool (pool : Option Nat) (size min_buffers max_buffers : Nat)
  | v4l2_object_decide_allocation
  | parent_decide_allocation
  | buffer_pool_set_active
  | element_error
  | v4l2_object_unlock
  | v4l2_object_unlock_stop
  deriving DecidableEq, Repr

/-- Outcome of an element method: returned value, new element state and the
calls issued. -/
structure MethodResult where
  ret : Bool
  src : GstISPSrc
  calls : List Call
  deriving DecidableEq, Repr

/-- The function `gst_ispsrc_set_format`: emit the prepare-format signal, then
set the format on the backend. -/
def gst_ispsrc_set_format (b : Backend) : Bool × List Call :=
  if !b.set_format_ok then
    (false, [Call.prepare_format_signal, Call.v4l2_object_set_format, Call.v4l2_error])
  else (true, [Call.prepare_format_signal, Call.v4l2_object_set_format])

/-- The function `gst_ispsrc_set_caps`. -/
def gst_ispsrc_set_caps (ispsrc : GstISPSrc) (b : Backend) : MethodResult :=
  if b.caps_equal then { ret := true, src := ispsrc, calls := [] }
  else if b.is_active then
    if b.try_format_ok then
      { ret := true,
        src := { ispsrc with
          renegotiation_adjust := u64add ispsrc.offset 1,
          pending_set_fmt := true },
        calls := [Call.v4l2_object_try_format] }
    else
      { ret := false, src := ispsrc, calls := [Call.v4l2_object_try_format, Call.v4l2_error] }
  else
    if !b.stop_ok then { ret := false, src := ispsrc, calls := [Call.v4l2_object_stop] }
    else
      let r := gst_ispsrc_set_format b
      { ret := r.1, src := ispsrc, calls := Call.v4l2_object_stop :: r.2 }

/-- The function `gst_ispsrc_decide_allocation`. -/
def gst_ispsrc_decide_allocation (src : GstISPSrc) (b : Backend) : MethodResult :=
  let tail (ret : Bool) (src : GstISPSrc) (calls : List Call) : MethodResult :=
    let r : Bool × List Call :=
      if ret then
        if b.v4l2_decide_ok then
          (b.parent_decide_ok,
            calls ++ [Call.v4l2_object_decide_allocation, Call.parent_decide_allocation])
        else (false, calls ++ [Call.v4l2_object_decide_allocation])
      else (ret, calls)
    if r.1 then
      if !b.set_active_ok then
        { ret := false, src := src,
          calls := r.2 ++ [Call.buffer_pool_set_active, Call.element_error] }
      else { ret := r.1, src := src, calls := r.2 ++ [Call.buffer_pool_set_active] }
    else { ret := r.1, src := src, calls := r.2 }
  if src.pending_set_fmt then
    if !b.stop_ok then { ret := false, src := src, calls := [Call.v4l2_object_stop] }
    else
      let r := gst_ispsrc_set_format b
      tail r.1 { src with pending_set_fmt := false } (Call.v4l2_object_stop :: r.2)
  else if b.pool_is_active then
    { ret := b.parent_decide_ok, src := src,
      calls :=
        [if b.n_allocation_params != 0 then
            Call.query_set_nth_allocation_param 0 b.base_src_allocator
          else Call.query_add_allocation_param b.base_src_allocator,
         if b.n_allocation_pools != 0 then
            Call.query_set_nth_allocation_pool 0 b.base_src_pool b.info_size 1 0
          else Call.query_add_allocation_pool b.base_src_pool b.info_size 1 0,
         Call.parent_decide_allocation] }
  else tail true src []

/-- The function `gst_ispsrc_start`. -/
def gst_ispsrc_start (ispsrc : GstISPSrc) : MethodResult :=
  { ret := true,
    src := { ispsrc with
      offset := 0, renegotiation_adjust := 0, ctrl_time := 0,
      has_bad_timestamp := false, last_timestamp := 0 },
    calls := [] }

/-- The function `gst_ispsrc_unlock`. -/
def gst_ispsrc_unlock (ispsrc : GstISPSrc) (b : Backend) : MethodResult :=
  { ret := b.unlock_ok, src := ispsrc, calls := [Call.v4l2_object_unlock] }

/-- The function `gst_ispsrc_unlock_stop`. -/
def gst_ispsrc_unlock_stop (ispsrc : GstISPSrc) (b : Backend) : MethodResult :=
  { ret := b.unlock_stop_ok, src := { ispsrc with last_timestamp := 0 },
    calls := [Call.v4l2_object_unlock_stop] }

/-- The function `gst_ispsrc_stop`. -/
def gst_ispsrc_stop (ispsrc : GstISPSrc) (b : Backend) : MethodResult :=
  if b.is_active then
    if !b.stop_ok then { ret := false, src := ispsrc, calls := [Call.v4l2_object_stop] }
    else
      { ret := true, src := { ispsrc with pending_set_fmt := false },
        calls := [Call.v4l2_object_stop] }
  else { ret := true, src := { ispsrc with pending_set_fmt := false }, calls := [] }

/-! ## `gst_ispsrc_query` -/

/-- The flow returns `gst_ispsrc_create` distinguishes. -/
inductive FlowReturn where
  | OK
  | FLUSHING
  | EOS
  | NOT_NEGOTIATED
  | ERROR
  | V4L2_CORRUPTED_BUFFER
  | V4L2_LAST_BUFFER
  deriving DecidableEq, Repr

/-- The metadata of a buffer: `timestamp` and `duration` are `GstClockTime`,
`offset` and `offset_end` are `guint64`. -/
structure GstBuffer where
  timestamp : Nat
  duration : Nat
  offset : Nat
  offset_end : Nat
  deriving DecidableEq, Repr

/-- One turn of the acquisition loop as the collaborators answer it: the
result of the parent class `alloc`, and the result of
`gst_v4l2_buffer_pool_process` with the buffer it leaves. -/
structure Attempt where
  alloc_ret : FlowReturn
  process_ret : FlowReturn
  buf : GstBuffer
  deriving DecidableEq, Repr

/-- A sample of the pipeline clock: the reading of `gst_clock_get_time` and the
base time of the element. -/
structure ClockSample where
  abs_time : Nat
  base_time : Nat
  deriving DecidableEq, Repr

/-- What `gst_ispsrc_create` reads from its surroundings: `obj->duration`, the
element clock (`none` when no clock is attached), and the readings of
`clock_gettime (CLOCK_MONOTONIC)` and `g_get_current_time` as `GstClockTime`. -/
structure CreateEnv where
  duration : Nat
  clock : Option ClockSample
  monotonic_now : Nat
  realtime_now : Nat
  deriving DecidableEq, Repr

/-- A detected frame loss: the local `lost_frame_count` that is logged, and the
`timestamp` and `duration` arguments of the QoS message that is posted. -/
structure LossReport where
  lost_frame_count : Nat
  timestamp : Nat
  duration : Nat
  deriving DecidableEq, Repr

/-- Outcome of `gst_ispsrc_create`: flow return, new element state, the buffer
handed out (none on failure), the local `delay` used for the time stamp, and
the QoS messages posted. -/
structure CreateResult where
  ret : FlowReturn
  src : GstISPSrc
  buf : Option GstBuffer
  delay : Option Nat
  lost : List LossReport
  deriving DecidableEq, Repr

/-- The value of `gstnow` the device time stamp is validated against: the
monotonic reading, replaced by the wall-clock reading when the time stamp is
ahead of it or more than ten seconds behind it. -/
def validation_now (timestamp : Nat) (env : CreateEnv) : Nat :=
  let gstnow := env.monotonic_now
  if timestamp > gstnow ∨ u64sub gstnow timestamp > 10 * GST_SECOND then env.realtime_now
  else gstnow

/-- The block at the label `retry` of `gst_ispsrc_create`: it yields the new
element state and the local `delay`. Each `goto retry` spends one unit of
`fuel`. -/
def create_retry (timestamp duration : Nat) (env : CreateEnv) :
    Nat → GstISPSrc → Option (GstISPSrc × Nat)
  | 0, _ => none
  | fuel + 1, ispsrc =>
    if !ispsrc.has_bad_timestamp ∧ timestamp ≠ GST_CLOCK_TIME_NONE then
      let gstnow := validation_now timestamp env
      if timestamp > gstnow then
        create_retry timestamp duration env fuel { ispsrc with has_bad_timestamp := true }
      else if ispsrc.last_timestamp > timestamp then
        create_retry timestamp duration env fuel { ispsrc with has_bad_timestamp := true }
      else
        let delay := u64sub gstnow timestamp
        if delay > timestamp then
          create_retry timestamp duration env fuel { ispsrc with has_bad_timestamp := true }
        else some ({ ispsrc with last_timestamp := timestamp }, delay)
    else
      some (ispsrc, if GST_CLOCK_TIME_IS_VALID duration then duration else 0)

/-- The time stamp set on the buffer, from the clock sample and `delay`. -/
def output_timestamp (clock : Option ClockSample) (delay : Nat) : Nat :=
  let abs_time :=
    match clock with
    | some c => c.abs_time
    | none => GST_CLOCK_TIME_NONE
  let base_time :=
    match clock with
    | some c => c.base_time
    | none => GST_CLOCK_TIME_NONE
  if abs_time ≠ GST_CLOCK_TIME_NONE then
    let timestamp := u64sub abs_time base_time
    if timestamp > delay then u64sub timestamp delay else 0
  else GST_CLOCK_TIME_NONE

/-- The part of `gst_ispsrc_create` that assigns offsets and detects lost
frames, from the buffer, the output time stamp and the duration. -/
def create_offsets (ispsrc : GstISPSrc) (buf : GstBuffer) (timestamp duration : Nat) :
    GstISPSrc × GstBuffer × List LossReport :=
  if buf.offset = GST_BUFFER_OFFSET_NONE ∨ buf.offset_end = GST_BUFFER_OFFSET_NONE then
    let next := u64add ispsrc.offset 1
    ({ ispsrc with offset := next },
     { buf with offset := ispsrc.offset, offset_end := next }, [])
  else
    let offset := u64add buf.offset ispsrc.renegotiation_adjust
    let offset_end := u64add buf.offset_end ispsrc.renegotiation_adjust
    let lost : List LossReport :=
      if ispsrc.offset ≠ 0 ∧ offset ≠ u64add ispsrc.offset 1 then
        let lost_frame_count := u64sub (u64sub offset ispsrc.offset) 1
        [{ lost_frame_count := lost_frame_count,
           timestamp := timestamp,
           duration :=
             if GST_CLOCK_TIME_IS_VALID duration then u64mul lost_frame_count duration
             else GST_CLOCK_TIME_NONE }]
      else []
    ({ ispsrc with offset := offset },
     { buf with offset := offset, offset_end := offset_end }, lost)

/-- The part of `gst_ispsrc_create` after a buffer was obtained with
`GST_FLOW_OK`. -/
def create_annotate (ispsrc : GstISPSrc) (env : CreateEnv) (buf : GstBuffer) :
    Option CreateResult :=
  let timestamp := buf.timestamp
  let duration := env.duration
  match create_retry timestamp duration env 2 ispsrc with
  | none => none
  | some (ispsrc, delay) =>
    let timestamp := output_timestamp env.clock delay
    let ctrl_time :=
      if GST_CLOCK_TIME_IS_VALID duration then u64add ispsrc.ctrl_time duration
      else timestamp
    let ispsrc := { ispsrc with ctrl_time := ctrl_time }
    let r := create_offsets ispsrc buf timestamp duration
    some
      { ret := FlowReturn.OK,
        src := r.1,
        buf := some { r.2.1 with timestamp := timestamp, duration := duration },
        delay := some delay,
        lost := r.2.2 }

/-- The function `gst_ispsrc_create`. The list holds the answers of the
collaborators to the successive turns of the acquisition loop; the result is
`none` when the loop has not ended by the time the list is used up. -/
def gst_ispsrc_create (ispsrc : GstISPSrc) (env : CreateEnv) :
    List Attempt → Option CreateResult
  | [] => none
  | a :: rest =>
    if a.alloc_ret ≠ FlowReturn.OK then
      some { ret := a.alloc_ret, src := ispsrc, buf := none, delay := none, lost := [] }
    else if a.process_ret = FlowReturn.V4L2_CORRUPTED_BUFFER then
      gst_ispsrc_create ispsrc env rest
    else if a.process_ret ≠ FlowReturn.OK then
      some
        { ret :=
            if a.process_ret = FlowReturn.V4L2_LAST_BUFFER then FlowReturn.ERROR
            else a.process_ret,
          src := ispsrc, buf := none, delay := none, lost := [] }
    else create_annotate ispsrc env a.buf

/-! ## Sessions -/

/-- The element methods that may run between `gst_ispsrc_start` and the next
`gst_ispsrc_start`. -/
inductive Op where
  | create (env : CreateEnv) (attempts : List Attempt)
  | unlock (b : Backend)
  | unlock_stop (b : Backend)
  | set_caps (b : Backend)
  | decide_allocation (b : Backend)
  | stop (b : Backend)
  deriving DecidableEq, Repr

/-- Element state after one method; `none` when the method does not return. -/
def step (ispsrc : GstISPSrc) : Op → Option GstISPSrc
  | Op.create env attempts => (gst_ispsrc_create ispsrc env attempts).map (·.src)
  | Op.unlock b => some (gst_ispsrc_unlock ispsrc b).src
  | Op.unlock_stop b => some (gst_ispsrc_unlock_stop ispsrc b).src
  | Op.set_caps b => some (gst_ispsrc_set_caps ispsrc b).src
  | Op.decide_allocation b => some (gst_ispsrc_decide_allocation ispsrc b).src
  | Op.stop b => some (gst_ispsrc_stop ispsrc b).src

/-- Element state after a sequence of methods. -/
def run (ispsrc : GstISPSrc) : List Op → Option GstISPSrc
  | [] => some ispsrc
  | op :: ops =>
    match step ispsrc op with
    | none => none
    | some next => run next ops

/-- The fallback delay: the frame duration when it is known, else 0. -/
def fallback_delay (duration : Nat) : Nat :=
  if GST_CLOCK_TIME_IS_VALID duration then duration else 0

/-- A buffer as the backend leaves it on a good turn. -/
def good (buf : GstBuffer) : Attempt :=
  { alloc_ret := FlowReturn.OK, process_ret := FlowReturn.OK, buf := buf }

/-- The preferred size of the peer: fixed integer width and height of the first
structure of its caps, when it has both. -/
def peer_preference (peercaps : GstCaps) : Option (Int × Int) :=
  match gst_caps_get_structure peercaps 0 with
  | some s => dims s
  | none => none

/-- Invariant of the backwards scan once every index `≥ k` has been visited:
either nothing qualified and the locals are still the initial ones, or `best`
designates a qualifying entry of size `width × height` that no visited
qualifying entry undercuts in both dimensions. -/
def ScanInv (l : List GstStructure) (tw th : Int) (k : Nat) (st : ScanState) : Prop :=
  (st = { width := G_MAXINT, height := G_MAXINT, best := 0 } ∧
    ∀ j e, k ≤ j → l[j]? = some e → qualifies tw th e = false) ∨
  (∃ e, l[st.best]? = some e ∧ dims e = some (st.width, st.height) ∧
    tw ≤ st.width ∧ th ≤ st.height ∧
    ∀ j e2 w h, k ≤ j → l[j]? = some e2 → dims e2 = some (w, h) → tw ≤ w → th ≤ h →
      w ≤ st.width → h ≤ st.height → w = st.width ∧ h = st.height)

/-- The buffer the acquisition loop of `gst_ispsrc_create` ends with, when it
ends with `GST_FLOW_OK`. -/
def acquired : List Attempt → Option GstBuffer
  | [] => none
  | a :: rest =>
    if a.alloc_ret ≠ FlowReturn.OK then none
    else if a.process_ret = FlowReturn.V4L2_CORRUPTED_BUFFER then acquired rest
    else if a.process_ret ≠ FlowReturn.OK then none
    else some a.buf

/-- Successive calls of `gst_ispsrc_create`, each on the state the previous one
left, with the outcome of every call. -/
def run_frames (ispsrc : GstISPSrc) : List (CreateEnv × List Attempt) → Option (List CreateResult)
  | [] => some []
  | f :: rest =>
    match gst_ispsrc_create ispsrc f.1 f.2 with
    | none => none
    | some r => (run_frames r.src rest).map (fun rs => r :: rs)

/-- The frames carry the backend offsets `k, k + 1, k + 2, ...` and valid end
offsets. -/
def consecutive_from : Nat → List (CreateEnv × GstBuffer) → Prop
  | _, [] => True
  | k, f :: rest =>
    f.2.offset = k ∧ f.2.offset ≠ GST_BUFFER_OFFSET_NONE ∧
      f.2.offset_end ≠ GST_BUFFER_OFFSET_NONE ∧ consecutive_from (k + 1) rest

/-- A sample element state: seven frames out, last accepted device time stamp
at 4 s, device clock still trusted. -/
def sample_src : GstISPSrc :=
  { offset := 7, renegotiation_adjust := 0, pending_set_fmt := false,
    has_bad_timestamp := false, last_timestamp := 4000000000, ctrl_time := 0 }

/-- A sample environment: 30 frames per second, pipeline clock at 9 s with base
time 1 s, monotonic clock at 5 s. -/
def sample_env : CreateEnv :=
  { duration := 33333333, clock := some { abs_time := 9000000000, base_time := 1000000000 },
    monotonic_now := 5000000000, realtime_now := 1700000000000000000 }

/-- A sample buffer: device time stamp 4.99 s, backend offsets 8 and 9. -/
def sample_buf : GstBuffer :=
  { timestamp := 4990000000, duration := GST_CLOCK_TIME_NONE, offset := 8, offset_end := 9 }

/-- A sample buffer whose device time stamp, 3 s, is behind the last accepted
one of `sample_src`. -/
def sample_late_buf : GstBuffer :=
  { timestamp := 3000000000, duration := GST_CLOCK_TIME_NONE, offset := 8, offset_end := 9 }

/-- A sample buffer with backend offsets 10 and 11. -/
def sample_gap_buf : GstBuffer :=
  { timestamp := 4990000000, duration := GST_CLOCK_TIME_NONE, offset := 10, offset_end := 11 }

/-- A structure with no field at all: width, height, frame rate, format and
interlace mode are all unconstrained. -/
def unconstrained : GstStructure :=
  { width := none, height := none, framerate := none, format := none, interlace_mode := none }

/-- A structure as the pad template has it: width and height in 1..32768 and
the frame rate in 0/1..2147483647/1. -/
def template_structure : GstStructure :=
  { width := some (IntValue.range 1 32768), height := some (IntValue.range 1 32768),
    framerate := some (FracValue.range 0 1 2147483647 1), format := none,
    interlace_mode := none }

/-- Sample backend answers: the caps differ, the pool is active and every call
succeeds. -/
def sample_backend : Backend :=
  { caps_equal := false, is_active := true, try_format_ok := true, stop_ok := true,
    set_format_ok := true, pool_is_active := true, n_allocation_params := 0,
    n_allocation_pools := 0, base_src_allocator := some 1, base_src_pool := some 2,
    info_size := 460800, v4l2_decide_ok := true, parent_decide_ok := true,
    set_active_ok := true, unlock_ok := true, unlock_stop_ok := true }

/-- A sample environment on a board without a battery-backed clock: the wall
clock started at zero at boot and reads 2 ms more than the monotonic clock,
which is at 5 s. -/
def sample_unset_clock_env : CreateEnv :=
  { duration := 33333333, clock := some { abs_time := 9000000000, base_time := 1000000000 },
    monotonic_now := 5000000000, realtime_now := 5002000000 }

/-- A sample buffer whose device time stamp, 5.001 s, is 1 ms ahead of the
monotonic reading of `sample_unset_clock_env`. -/
def sample_ahead_buf : GstBuffer :=
  { timestamp := 5001000000, duration := GST_CLOCK_TIME_NONE, offset := 8, offset_end := 9 }

/-- Direct minimisation, as the specification words the intent of the
tie-break ("prefer smallest resolution still ≥ peer preference"): the least
width × height over the entries with width ≥ `tw` and height ≥ `th`, whatever
their position; `none` when no entry qualifies. -/
def direct_min_area (tw th : Int) : List GstStructure → Option Int
  | [] => none
  | e :: rest =>
    if qualifies tw th e = true then
      match direct_min_area tw th rest with
      | none => some (area e)
      | some m => some (min (area e) m)
    else direct_min_area tw th rest

/-- The entry carries a fixed integer width and height, both non-negative. -/
def non_negative_sized (e : GstStructure) : Prop :=
  ∃ w h, dims e = some (w, h) ∧ 0 ≤ w ∧ 0 ≤ h

/-- Invariant of the backwards scan over entries ordered by non-increasing
area, once every index `≥ k` has been visited: either nothing qualified and the
locals are still the initial ones, or `best` designates a visited qualifying
entry of size `width × height` whose area is least among the visited
qualifying entries. -/
def AreaInv (l : List GstStructure) (tw th : Int) (k : Nat) (st : ScanState) : Prop :=
  (st = { width := G_MAXINT, height := G_MAXINT, best := 0 } ∧
    ∀ j e, k ≤ j → l[j]? = some e → qualifies tw th e = false) ∨
  (∃ e, l[st.best]? = some e ∧ k ≤ st.best ∧ dims e = some (st.width, st.height) ∧
    tw ≤ st.width ∧ th ≤ st.height ∧
    ∀ j e2, k ≤ j → l[j]? = some e2 → qualifies tw th e2 = true → area e ≤ area e2)

/-- A sample intersection ordered by non-increasing area. -/
def sample_sorted_caps : List GstStructure :=
  [sized 1920 1080, sized 1280 720, sized 640 480, sized 320 240]

/-! # Theorems -/

theorem scan_body_eq (l : List GstStructure) (tw th : Int) (k : Nat) (st : ScanState) :
    scan_body (GstCaps.structs l) tw th k st =
      match l[k]? with
      | none => st
      | some e =>
        match dims e with
        | some (w, h) =>
          if w ≥ tw ∧ w ≤ st.width ∧ h ≥ th ∧ h ≤ st.height then
            { width := w, height := h, best := k }
          else st
        | none => st := by
  simp only [scan_body, gst_caps_get_structure]
  cases l[k]? with
  | none => rfl
  | some e =>
    simp only [dims]
    cases gst_structure_get_int e.width <;> cases gst_structure_get_int e.height <;> rfl

theorem qualifies_iff (tw th : Int) (e : GstStructure) :
    qualifies tw th e = true ↔ ∃ w h, dims e = some (w, h) ∧ tw ≤ w ∧ th ≤ h := by
  unfold qualifies
  cases hd : dims e with
  | none => simp
  | some p =>
    obtain ⟨w, h⟩ := p
    simp only [Bool.and_eq_true, decide_eq_true_eq, Option.some.injEq, Prod.mk.injEq]
    constructor
    · intro hq
      exact ⟨w, h, ⟨rfl, rfl⟩, hq⟩
    · rintro ⟨w2, h2, ⟨rfl, rfl⟩, hq⟩
      exact hq

theorem scan_body_inv (l : List GstStructure) (tw th : Int) (k : Nat) (st : ScanState)
    (hty : ∀ e ∈ l, gintSized e) (hinv : ScanInv l tw th (k + 1) st) :
    ScanInv l tw th k (scan_body (GstCaps.structs l) tw th k st) := by
  rw [scan_body_eq]
  cases hk : l[k]? with
  | none =>
    simp only
    rcases hinv with ⟨h0, hnq⟩ | ⟨e, hbest, hd, htw, hth, hmin⟩
    · left
      refine ⟨h0, fun j e hj hje => ?_⟩
      rcases Nat.eq_or_lt_of_le hj with h | h
      · subst h; rw [hk] at hje; cases hje
      · exact hnq j e h hje
    · right
      refine ⟨e, hbest, hd, htw, hth, fun j e2 w h hj hje hd2 h1 h2 h3 h4 => ?_⟩
      rcases Nat.eq_or_lt_of_le hj with hjk | hjk
      · subst hjk; rw [hk] at hje; cases hje
      · exact hmin j e2 w h hjk hje hd2 h1 h2 h3 h4
  | some ek =>
    simp only
    have hmem : ek ∈ l := List.getElem?_mem hk
    cases hdk : dims ek with
    | none =>
      simp only
      rcases hinv with ⟨h0, hnq⟩ | ⟨e, hbest, hd, htw, hth, hmin⟩
      · left
        refine ⟨h0, fun j e hj hje => ?_⟩
        rcases Nat.eq_or_lt_of_le hj with h | h
        · subst h
          rw [hk] at hje
          cases hje
          simp [qualifies, hdk]
        · exact hnq j e h hje
      · right
        refine ⟨e, hbest, hd, htw, hth, fun j e2 w h hj hje hd2 h1 h2 h3 h4 => ?_⟩
        rcases Nat.eq_or_lt_of_le hj with hjk | hjk
        · subst hjk
          rw [hk] at hje
          cases hje
          rw [hdk] at hd2
          cases hd2
        · exact hmin j e2 w h hjk hje hd2 h1 h2 h3 h4
    | some p =>
      obtain ⟨wk, hk2⟩ := p
      simp only
      by_cases hc : wk ≥ tw ∧ wk ≤ st.width ∧ hk2 ≥ th ∧ hk2 ≤ st.height
      · rw [if_pos hc]
        obtain ⟨c1, c2, c3, c4⟩ := hc
        right
        refine ⟨ek, hk, hdk, c1, c3, fun j e2 w h hj hje hd2 h1 h2 h3 h4 => ?_⟩
        simp only at h3 h4 ⊢
        rcases Nat.eq_or_lt_of_le hj with hjk | hjk
        · subst hjk
          rw [hk] at hje
          cases hje
          rw [hdk] at hd2
          cases hd2
          exact ⟨rfl, rfl⟩
        · rcases hinv with ⟨h0, hnq⟩ | ⟨e, hbest, hd, htw, hth, hmin⟩
          · have := hnq j e2 hjk hje
            have hq : qualifies tw th e2 = true := (qualifies_iff tw th e2).2 ⟨w, h, hd2, h1, h2⟩
            rw [this] at hq
            cases hq
          · have := hmin j e2 w h hjk hje hd2 h1 h2 (le_trans h3 c2) (le_trans h4 c4)
            omega
      · rw [if_neg hc]
        rcases hinv with ⟨h0, hnq⟩ | ⟨e, hbest, hd, htw, hth, hmin⟩
        · left
          refine ⟨h0, fun j e hj hje => ?_⟩
          rcases Nat.eq_or_lt_of_le hj with h | h
          · subst h
            rw [hk] at hje
            cases hje
            have hg := hty ek hmem wk hk2 hdk
            rw [h0] at hc
            simp only at hc
            cases hq : qualifies tw th ek with
            | false => rfl
            | true =>
              obtain ⟨w, h, hd2, h1, h2⟩ := (qualifies_iff tw th ek).1 hq
              rw [hdk] at hd2
              cases hd2
              exact absurd ⟨h1, hg.1, h2, hg.2⟩ hc
          · exact hnq j e h hje
        · right
          refine ⟨e, hbest, hd, htw, hth, fun j e2 w h hj hje hd2 h1 h2 h3 h4 => ?_⟩
          rcases Nat.eq_or_lt_of_le hj with hjk | hjk
          · subst hjk
            rw [hk] at hje
            cases hje
            rw [hdk] at hd2
            cases hd2
            exact absurd ⟨h1, h3, h2, h4⟩ hc
          · exact hmin j e2 w h hjk hje hd2 h1 h2 h3 h4

theorem scan_loop_inv (l : List GstStructure) (tw th : Int)
    (hty : ∀ e ∈ l, gintSized e) :
    ∀ (k : Nat) (st : ScanState), ScanInv l tw th k st →
      ScanInv l tw th 0 (scan_loop (GstCaps.structs l) tw th k st) := by
  intro k
  induction k with
  | zero => intro st h; simpa [scan_loop] using h
  | succ n ih =>
    intro st h
    rw [scan_loop]
    exact ih _ (scan_body_inv l tw th n st hty h)

theorem scan_inv_init (l : List GstStructure) (tw th : Int) :
    ScanInv l tw th l.length { width := G_MAXINT, height := G_MAXINT, best := 0 } := by
  left
  refine ⟨rfl, fun j e hj hje => ?_⟩
  have := List.getElem?_eq_none hj
  rw [this] at hje
  cases hje

/-- After the whole scan the invariant holds for every index. -/
theorem scan_final (l : List GstStructure) (tw th : Int) (hty : ∀ e ∈ l, gintSized e) :
    ScanInv l tw th 0
      (scan_loop (GstCaps.structs l) tw th l.length
        { width := G_MAXINT, height := G_MAXINT, best := 0 }) :=
  scan_loop_inv l tw th hty l.length _ (scan_inv_init l tw th)

theorem negotiate_best_eq (peercaps icaps : GstCaps) :
    negotiate_best peercaps icaps =
      match peer_preference peercaps with
      | some (tw, th) =>
        (scan_loop icaps tw th (gst_caps_get_size icaps)
          { width := G_MAXINT, height := G_MAXINT, best := 0 }).best
      | none => 0 := by
  simp only [negotiate_best, peer_preference]
  cases gst_caps_get_structure peercaps 0 with
  | none => rfl
  | some s =>
    simp only [Option.some_bind, dims]
    cases gst_structure_get_int s.width <;> cases gst_structure_get_int s.height <;> rfl

theorem negotiate_select_many (peercaps : GstCaps) (l : List GstStructure)
    (hsize : 1 < l.length) :
    negotiate_select peercaps (GstCaps.structs l) =
      GstCaps.structs (l[negotiate_best peercaps (GstCaps.structs l)]?).toList := by
  simp only [negotiate_select, gst_caps_get_size, gst_caps_copy_nth]
  rw [if_pos hsize]

/-- What the tie-break leaves in `best` when the peer has a preferred size:
either nothing qualifies and `best` is 0, or `best` designates a qualifying
entry that no qualifying entry undercuts in both dimensions. -/
theorem negotiate_best_spec (peercaps : GstCaps) (l : List GstStructure) (tw th : Int)
    (hty : ∀ e ∈ l, gintSized e) (hp : peer_preference peercaps = some (tw, th)) :
    (negotiate_best peercaps (GstCaps.structs l) = 0 ∧
      ∀ e ∈ l, qualifies tw th e = false) ∨
    (∃ c cw ch, l[negotiate_best peercaps (GstCaps.structs l)]? = some c ∧
      dims c = some (cw, ch) ∧ tw ≤ cw ∧ th ≤ ch ∧
      ∀ e ∈ l, ∀ w h, dims e = some (w, h) → tw ≤ w → th ≤ h → w ≤ cw → h ≤ ch →
        w = cw ∧ h = ch) := by
  rw [negotiate_best_eq, hp]
  simp only [gst_caps_get_size]
  rcases scan_final l tw th hty with ⟨h0, hnq⟩ | ⟨e, hbest, hd, htw, hth, hmin⟩
  · left
    refine ⟨by rw [h0], fun e he => ?_⟩
    obtain ⟨n, hn⟩ := List.mem_iff_getElem?.1 he
    exact hnq n e (Nat.zero_le n) hn
  · right
    refine ⟨e, _, _, hbest, hd, htw, hth, fun e2 he2 w h hd2 h1 h2 h3 h4 => ?_⟩
    obtain ⟨n, hn⟩ := List.mem_iff_getElem?.1 he2
    exact hmin n e2 w h (Nat.zero_le n) hn hd2 h1 h2 h3 h4

/-- C1: in the tie-break of `gst_ispsrc_negotiate` on an intersection with more
than one entry, when the peer's first structure has fixed integer width `tw`
and height `th` and some entry has width ≥ `tw` and height ≥ `th`, the entry
at index `best`, which is the one chosen, has width ≥ `tw` and height ≥ `th`;
when no entry qualifies, or the peer's first structure has no fixed integer
width and height, the chosen entry is the one at index 0. -/
theorem negotiate_tie_break_choice (peercaps : GstCaps) (l : List GstStructure)
    (hsize : 1 < l.length) (hty : ∀ e ∈ l, gintSized e) :
    (∀ tw th, peer_preference peercaps = some (tw, th) →
      (∃ e ∈ l, qualifies tw th e = true) →
      ∃ c, l[negotiate_best peercaps (GstCaps.structs l)]? = some c ∧
        negotiate_select peercaps (GstCaps.structs l) = GstCaps.structs [c] ∧
        qualifies tw th c = true) ∧
    (∀ tw th, peer_preference peercaps = some (tw, th) →
      (∀ e ∈ l, qualifies tw th e = false) →
      negotiate_best peercaps (GstCaps.structs l) = 0 ∧
        negotiate_select peercaps (GstCaps.structs l) = GstCaps.structs (l.take 1)) ∧
    (peer_preference peercaps = none →
      negotiate_best peercaps (GstCaps.structs l) = 0 ∧
        negotiate_select peercaps (GstCaps.structs l) = GstCaps.structs (l.take 1)) := by
  have htake : ∀ b, b = 0 → (l[b]?).toList = l.take 1 := by
    intro b hb
    subst hb
    cases l with
    | nil => simp at hsize
    | cons a rest => simp
  refine ⟨fun tw th hp hq => ?_, fun tw th hp hnq => ?_, fun hp => ?_⟩
  · rcases negotiate_best_spec peercaps l tw th hty hp with ⟨_, hnone⟩ | ⟨c, cw, ch, hc, hd, h1, h2, _⟩
    · obtain ⟨e, he, heq⟩ := hq
      rw [hnone e he] at heq
      cases heq
    · refine ⟨c, hc, ?_, (qualifies_iff tw th c).2 ⟨cw, ch, hd, h1, h2⟩⟩
      rw [negotiate_select_many peercaps l hsize, hc]
      rfl
  · rcases negotiate_best_spec peercaps l tw th hty hp with ⟨h0, _⟩ | ⟨c, cw, ch, hc, hd, h1, h2, _⟩
    · refine ⟨h0, ?_⟩
      rw [negotiate_select_many peercaps l hsize, htake _ h0]
    · have hq : qualifies tw th c = true := (qualifies_iff tw th c).2 ⟨cw, ch, hd, h1, h2⟩
      rw [hnq c (List.getElem?_mem hc)] at hq
      cases hq
  · have h0 : negotiate_best peercaps (GstCaps.structs l) = 0 := by
      rw [negotiate_best_eq, hp]
    refine ⟨h0, ?_⟩
    rw [negotiate_select_many peercaps l hsize, htake _ h0]

/-- C1, at a concrete intersection: the peer prefers 640×480, the intersection
lists 1920×1080, 1280×720 and 320×240. -/
theorem negotiate_tie_break_choice_witness :
    1 < [sized 1920 1080, sized 1280 720, sized 320 240].length ∧
    (∃ c, [sized 1920 1080, sized 1280 720, sized 320 240][negotiate_best
          (GstCaps.structs [sized 640 480])
          (GstCaps.structs [sized 1920 1080, sized 1280 720, sized 320 240])]? = some c ∧
        negotiate_select (GstCaps.structs [sized 640 480])
          (GstCaps.structs [sized 1920 1080, sized 1280 720, sized 320 240]) =
            GstCaps.structs [c] ∧
        qualifies 640 480 c = true) :=
  ⟨by decide,
    (negotiate_tie_break_choice (GstCaps.structs [sized 640 480])
      [sized 1920 1080, sized 1280 720, sized 320 240] (by decide)
      (by
        intro e he w h hd
        simp only [List.mem_cons, List.mem_singleton, List.not_mem_nil, or_false] at he
        rcases he with rfl | rfl | rfl <;>
          · simp only [dims, sized, gst_structure_get_int, Option.some.injEq,
              Prod.mk.injEq] at hd
            obtain ⟨rfl, rfl⟩ := hd
            decide)).1 640 480 (by rfl) ⟨sized 1920 1080, by simp, by decide⟩⟩

/-- C2, counterexample: the peer prefers 40×80 and the intersection lists
100×100 then 50×300. Both entries qualify; the backwards scan first takes
50×300 and then refuses 100×100, whose width is larger, so the chosen entry has
area 15000 although the qualifying entry 100×100 has area 10000. -/
theorem tie_break_not_minimal_area :
    negotiate_select (GstCaps.structs [sized 40 80])
        (GstCaps.structs [sized 100 100, sized 50 300]) = GstCaps.structs [sized 50 300] ∧
      qualifies 40 80 (sized 100 100) = true ∧
      qualifies 40 80 (sized 50 300) = true ∧
      area (sized 100 100) < area (sized 50 300) := by
  decide

/-- C2, amended: whenever some intersection entry has width ≥ `tw` and height ≥
`th`, the entry chosen by the tie-break qualifies and no qualifying entry is
at most as wide and at most as high without having the very same width and
height; and for `tw, th ≥ 0` its width × height is minimal among the
qualifying entries that are comparable with it in both dimensions. -/
theorem tie_break_minimal_in_both_dimensions (peercaps : GstCaps) (l : List GstStructure)
    (tw th : Int) (hty : ∀ e ∈ l, gintSized e)
    (hp : peer_preference peercaps = some (tw, th))
    (hq : ∃ e ∈ l, qualifies tw th e = true) :
    ∃ c cw ch, l[negotiate_best peercaps (GstCaps.structs l)]? = some c ∧
      dims c = some (cw, ch) ∧ qualifies tw th c = true ∧
      (∀ e ∈ l, ∀ w h, dims e = some (w, h) → tw ≤ w → th ≤ h → w ≤ cw → h ≤ ch →
        w = cw ∧ h = ch) ∧
      (0 ≤ tw → 0 ≤ th → ∀ e ∈ l, ∀ w h, dims e = some (w, h) → tw ≤ w → th ≤ h →
        ((w ≤ cw ∧ h ≤ ch) ∨ (cw ≤ w ∧ ch ≤ h)) → area c ≤ area e) := by
  rcases negotiate_best_spec peercaps l tw th hty hp with
    ⟨_, hnone⟩ | ⟨c, cw, ch, hc, hd, h1, h2, hmin⟩
  · obtain ⟨e, he, heq⟩ := hq
    rw [hnone e he] at heq
    cases heq
  · refine ⟨c, cw, ch, hc, hd, (qualifies_iff tw th c).2 ⟨cw, ch, hd, h1, h2⟩, hmin, ?_⟩
    intro htw hth e he w h hde hw hh hcmp
    have hac : area c = cw * ch := by simp [area, hd]
    have hae : area e = w * h := by simp [area, hde]
    rw [hac, hae]
    rcases hcmp with ⟨a, b⟩ | ⟨a, b⟩
    · obtain ⟨rfl, rfl⟩ := hmin e he w h hde hw hh a b
      exact le_refl _
    · exact mul_le_mul a b (le_trans hth h2) (le_trans htw (le_trans h1 a))

/-- C2 amended, at the intersection of the counterexample. -/
theorem tie_break_minimal_in_both_dimensions_witness :
    ∃ c cw ch, [sized 100 100, sized 50 300][negotiate_best (GstCaps.structs [sized 40 80])
          (GstCaps.structs [sized 100 100, sized 50 300])]? = some c ∧
      dims c = some (cw, ch) ∧ qualifies 40 80 c = true ∧
      (∀ e ∈ [sized 100 100, sized 50 300], ∀ w h, dims e = some (w, h) → 40 ≤ w → 80 ≤ h →
        w ≤ cw → h ≤ ch → w = cw ∧ h = ch) ∧
      (0 ≤ (40 : Int) → 0 ≤ (80 : Int) → ∀ e ∈ [sized 100 100, sized 50 300], ∀ w h,
        dims e = some (w, h) → 40 ≤ w → 80 ≤ h →
        ((w ≤ cw ∧ h ≤ ch) ∨ (cw ≤ w ∧ ch ≤ h)) → area c ≤ area e) :=
  tie_break_minimal_in_both_dimensions (GstCaps.structs [sized 40 80])
    [sized 100 100, sized 50 300] 40 80
    (by
      intro e he w h hd
      simp only [List.mem_cons, List.mem_singleton, List.not_mem_nil, or_false] at he
      rcases he with rfl | rfl <;>
        · simp only [dims, sized, gst_structure_get_int, Option.some.injEq,
            Prod.mk.injEq] at hd
          obtain ⟨rfl, rfl⟩ := hd
          decide)
    (by rfl) ⟨sized 100 100, by simp, by decide⟩

/-- C3, counterexample: this source's caps are the ANY caps and the peer
advertises the EMPTY caps, which are not the ANY caps; their intersection is
EMPTY, yet `gst_ispsrc_negotiate` returns TRUE (without calling set-caps). -/
theorem negotiate_any_source_returns_true :
    gst_caps_is_any (GstCaps.structs []) = false ∧
      (fun (p _t : GstCaps) => some p) (GstCaps.structs []) GstCaps.any =
        some (GstCaps.structs []) ∧
      gst_ispsrc_negotiate (some GstCaps.any) (some (GstCaps.structs []))
        (fun p _t => some p) (fun _ => true) = { result := true, set_caps_calls := [] } := by
  decide

/-- C3, amended: when this source's own caps are present and are not the ANY
caps, the peer advertises caps that are not the ANY caps, and their
intersection is empty, `gst_ispsrc_negotiate` returns FALSE and never calls
`gst_base_src_set_caps`. When the source's own caps are absent (NULL) or are
the ANY caps, it returns TRUE at once, without calling
`gst_base_src_set_caps`, whatever the peer advertises. -/
theorem negotiate_empty_intersection_fails (t p : GstCaps)
    (intersect : GstCaps → GstCaps → Option GstCaps) (set_caps : GstCaps → Bool)
    (ht : gst_caps_is_any t = false) (hp : gst_caps_is_any p = false)
    (hi : intersect p t = some (GstCaps.structs [])) :
    gst_ispsrc_negotiate (some t) (some p) intersect set_caps =
      { result := false, set_caps_calls := [] } ∧
    (∀ (peercaps : Option GstCaps) (intersect2 : GstCaps → GstCaps → Option GstCaps)
        (set_caps2 : GstCaps → Bool),
      gst_ispsrc_negotiate none peercaps intersect2 set_caps2 =
        { result := true, set_caps_calls := [] }) ∧
    (∀ (t2 : GstCaps) (peercaps : Option GstCaps)
        (intersect2 : GstCaps → GstCaps → Option GstCaps) (set_caps2 : GstCaps → Bool),
      gst_caps_is_any t2 = true →
      gst_ispsrc_negotiate (some t2) peercaps intersect2 set_caps2 =
        { result := true, set_caps_calls := [] }) := by
  refine ⟨?_, ?_, ?_⟩
  · simp [gst_ispsrc_negotiate, ht, hp, hi, negotiate_select, gst_caps_get_size,
      gst_caps_truncate, gst_caps_is_empty]
  · intro peercaps intersect2 set_caps2
    rfl
  · intro t2 peercaps intersect2 set_caps2 hany
    simp only [gst_ispsrc_negotiate, hany, if_true]

/-- C3 amended, at a concrete input: the source offers 320×240 only, the peer
asks for 640×480 only, and nothing is common to both. -/
theorem negotiate_empty_intersection_fails_witness :
    gst_ispsrc_negotiate (some (GstCaps.structs [sized 320 240]))
        (some (GstCaps.structs [sized 640 480]))
        (fun _ _ => some (GstCaps.structs [])) (fun _ => true) =
      { result := false, set_caps_calls := [] } :=
  (negotiate_empty_intersection_fails (GstCaps.structs [sized 320 240])
    (GstCaps.structs [sized 640 480]) (fun _ _ => some (GstCaps.structs [])) (fun _ => true)
    rfl rfl rfl).1

/-! ## Frames -/

theorem create_of_acquired (s : GstISPSrc) (env : CreateEnv) :
    ∀ (attempts : List Attempt) (buf : GstBuffer), acquired attempts = some buf →
      gst_ispsrc_create s env attempts = create_annotate s env buf := by
  intro attempts
  induction attempts with
  | nil => intro buf h; simp [acquired] at h
  | cons a rest ih =>
    intro buf h
    simp only [acquired] at h
    simp only [gst_ispsrc_create]
    by_cases h1 : a.alloc_ret ≠ FlowReturn.OK
    · rw [if_pos h1] at h; cases h
    · rw [if_neg h1] at h ⊢
      by_cases h2 : a.process_ret = FlowReturn.V4L2_CORRUPTED_BUFFER
      · rw [if_pos h2] at h ⊢
        exact ih buf h
      · rw [if_neg h2] at h ⊢
        by_cases h3 : a.process_ret ≠ FlowReturn.OK
        · rw [if_pos h3] at h; cases h
        · rw [if_neg h3] at h ⊢
          cases h
          rfl

theorem acquired_good (buf : GstBuffer) : acquired [good buf] = some buf := by
  simp [acquired, good]

/-- Two passes through the label `retry` always suffice, and give this. -/
theorem create_retry_two (ts dur : Nat) (env : CreateEnv) (s : GstISPSrc) :
    create_retry ts dur env 2 s =
      some
        (if s.has_bad_timestamp = false ∧ ts ≠ GST_CLOCK_TIME_NONE then
          if ts > validation_now ts env ∨ s.last_timestamp > ts ∨
              u64sub (validation_now ts env) ts > ts then
            ({ s with has_bad_timestamp := true }, fallback_delay dur)
          else ({ s with last_timestamp := ts }, u64sub (validation_now ts env) ts)
        else (s, fallback_delay dur)) := by
  simp only [create_retry, fallback_delay]
  by_cases hb : s.has_bad_timestamp = false ∧ ts ≠ GST_CLOCK_TIME_NONE
  · obtain ⟨hb1, hb2⟩ := hb
    simp only [hb1, hb2, Bool.not_false, ne_eq, not_false_eq_true, and_self, if_true,
      Bool.not_true, Bool.false_eq_true, false_and, if_false]
    by_cases h1 : ts > validation_now ts env
    · simp [h1]
    · by_cases h2 : s.last_timestamp > ts
      · simp [h1, h2]
      · by_cases h3 : u64sub (validation_now ts env) ts > ts
        · simp [h1, h2, h3]
        · simp [h1, h2, h3]
  · have hb2 : ¬ ((!s.has_bad_timestamp) = true ∧ ts ≠ GST_CLOCK_TIME_NONE) := by
      intro h
      apply hb
      refine ⟨?_, h.2⟩
      cases hs : s.has_bad_timestamp with
      | false => rfl
      | true => rw [hs] at h; simp at h
    rw [if_neg hb2, if_neg hb]

theorem u64sub_of_le (a b : Nat) (hb : b ≤ a) (ha : a < U64) : u64sub a b = a - b := by
  unfold u64sub
  have hb2 : b % U64 = b := Nat.mod_eq_of_lt (lt_of_le_of_lt hb ha)
  rw [hb2]
  have h1 : a + (U64 - b) = (a - b) + U64 := by omega
  rw [h1, Nat.add_mod_right]
  exact Nat.mod_eq_of_lt (by omega)

theorem validation_now_lt (ts : Nat) (env : CreateEnv) (hm : env.monotonic_now < U64)
    (hr : env.realtime_now < U64) : validation_now ts env < U64 := by
  unfold validation_now
  simp only
  split
  · exact hr
  · exact hm

/-- The result of `create_annotate`, with the outcome of the `retry` block made
explicit. -/
theorem create_annotate_eq (s : GstISPSrc) (env : CreateEnv) (buf : GstBuffer)
    (s1 : GstISPSrc) (d : Nat)
    (h : create_retry buf.timestamp env.duration env 2 s = some (s1, d)) :
    create_annotate s env buf =
      some
        { ret := FlowReturn.OK,
          src :=
            (create_offsets
              { s1 with
                ctrl_time :=
                  if GST_CLOCK_TIME_IS_VALID env.duration then u64add s1.ctrl_time env.duration
                  else output_timestamp env.clock d }
              buf (output_timestamp env.clock d) env.duration).1,
          buf :=
            some
              { (create_offsets
                  { s1 with
                    ctrl_time :=
                      if GST_CLOCK_TIME_IS_VALID env.duration then
                        u64add s1.ctrl_time env.duration
                      else output_timestamp env.clock d }
                  buf (output_timestamp env.clock d) env.duration).2.1 with
                timestamp := output_timestamp env.clock d, duration := env.duration },
          delay := some d,
          lost :=
            (create_offsets
              { s1 with
                ctrl_time :=
                  if GST_CLOCK_TIME_IS_VALID env.duration then u64add s1.ctrl_time env.duration
                  else output_timestamp env.clock d }
              buf (output_timestamp env.clock d) env.duration).2.2 } := by
  simp only [create_annotate, h]

theorem create_offsets_time_fields (s : GstISPSrc) (buf : GstBuffer) (ts dur : Nat) :
    (create_offsets s buf ts dur).1.has_bad_timestamp = s.has_bad_timestamp ∧
      (create_offsets s buf ts dur).1.last_timestamp = s.last_timestamp ∧
      (create_offsets s buf ts dur).1.pending_set_fmt = s.pending_set_fmt ∧
      (create_offsets s buf ts dur).1.renegotiation_adjust = s.renegotiation_adjust := by
  unfold create_offsets
  split <;> simp

/-- C4: for a frame processed by `gst_ispsrc_create` with `has_bad_timestamp`
unset and a device time stamp `ts` present, with validation time `now`: the
time stamp is rejected, that is `has_bad_timestamp` becomes TRUE, exactly when
`ts > now` or `ts < last_timestamp` or `now - ts > ts`; when rejected the
fallback delay is used and `last_timestamp` is kept; otherwise
`last_timestamp` becomes `ts` and the delay is `now - ts`. -/
theorem create_timestamp_validation (s : GstISPSrc) (env : CreateEnv)
    (attempts : List Attempt) (buf : GstBuffer)
    (hacq : acquired attempts = some buf)
    (hbad : s.has_bad_timestamp = false)
    (hts : buf.timestamp ≠ GST_CLOCK_TIME_NONE)
    (hm : env.monotonic_now < U64) (hr : env.realtime_now < U64) :
    ∃ r, gst_ispsrc_create s env attempts = some r ∧
      (r.src.has_bad_timestamp = true ↔
        (buf.timestamp > validation_now buf.timestamp env ∨
          buf.timestamp < s.last_timestamp ∨
          validation_now buf.timestamp env - buf.timestamp > buf.timestamp)) ∧
      (r.src.has_bad_timestamp = true →
        r.delay = some (fallback_delay env.duration) ∧
          r.src.last_timestamp = s.last_timestamp) ∧
      (r.src.has_bad_timestamp = false →
        r.src.last_timestamp = buf.timestamp ∧
          r.delay = some (validation_now buf.timestamp env - buf.timestamp)) := by
  have hnow := validation_now_lt buf.timestamp env hm hr
  have hretry := create_retry_two buf.timestamp env.duration env s
  rw [if_pos ⟨hbad, hts⟩] at hretry
  rw [create_of_acquired s env attempts buf hacq]
  by_cases hrej : buf.timestamp > validation_now buf.timestamp env ∨
      s.last_timestamp > buf.timestamp ∨
      u64sub (validation_now buf.timestamp env) buf.timestamp > buf.timestamp
  · rw [if_pos hrej] at hretry
    refine ⟨_, create_annotate_eq s env buf _ _ hretry, ?_, ?_, ?_⟩
    · simp only [(create_offsets_time_fields _ _ _ _).1, true_iff]
      rcases hrej with h | h | h
      · exact Or.inl h
      · exact Or.inr (Or.inl h)
      · by_cases hle : buf.timestamp ≤ validation_now buf.timestamp env
        · rw [u64sub_of_le _ _ hle hnow] at h
          exact Or.inr (Or.inr h)
        · exact Or.inl (by omega)
    · intro _
      exact ⟨rfl, by simp only [(create_offsets_time_fields _ _ _ _).2.1]⟩
    · intro h
      simp [(create_offsets_time_fields _ _ _ _).1] at h
  · rw [if_neg hrej] at hretry
    have hle : buf.timestamp ≤ validation_now buf.timestamp env := by
      by_contra hc
      exact hrej (Or.inl (by omega))
    have hsub := u64sub_of_le _ _ hle hnow
    refine ⟨_, create_annotate_eq s env buf _ _ hretry, ?_, ?_, ?_⟩
    · simp only [(create_offsets_time_fields _ _ _ _).1, hbad, Bool.false_eq_true, false_iff]
      rw [hsub] at hrej
      intro h
      apply hrej
      rcases h with h | h | h
      · exact Or.inl h
      · exact Or.inr (Or.inl h)
      · exact Or.inr (Or.inr h)
    · intro h
      simp [(create_offsets_time_fields _ _ _ _).1, hbad] at h
    · intro _
      refine ⟨by simp only [(create_offsets_time_fields _ _ _ _).2.1], ?_⟩
      rw [hsub]

/-- C4, at a concrete frame: device time stamp 4.99 s against a monotonic clock
at 5 s. -/
theorem create_timestamp_validation_witness :
    ∃ r, gst_ispsrc_create sample_src sample_env [good sample_buf] = some r ∧
      (r.src.has_bad_timestamp = true ↔
        (sample_buf.timestamp > validation_now sample_buf.timestamp sample_env ∨
          sample_buf.timestamp < sample_src.last_timestamp ∨
          validation_now sample_buf.timestamp sample_env - sample_buf.timestamp >
            sample_buf.timestamp)) ∧
      (r.src.has_bad_timestamp = true →
        r.delay = some (fallback_delay sample_env.duration) ∧
          r.src.last_timestamp = sample_src.last_timestamp) ∧
      (r.src.has_bad_timestamp = false →
        r.src.last_timestamp = sample_buf.timestamp ∧
          r.delay = some (validation_now sample_buf.timestamp sample_env -
            sample_buf.timestamp)) :=
  create_timestamp_validation sample_src sample_env [good sample_buf] sample_buf
    (acquired_good sample_buf) rfl (by decide) (by decide) (by decide)

/-! ## Stickiness of `has_bad_timestamp` -/

/-- Once `has_bad_timestamp` is set, a call of `gst_ispsrc_create` keeps it
set, keeps `last_timestamp`, and uses the fallback delay if it hands out a
frame. -/
theorem create_when_bad (s : GstISPSrc) (env : CreateEnv) (hbad : s.has_bad_timestamp = true) :
    ∀ (attempts : List Attempt) (r : CreateResult),
      gst_ispsrc_create s env attempts = some r →
      r.src.has_bad_timestamp = true ∧ r.src.last_timestamp = s.last_timestamp ∧
        (r.buf ≠ none → r.delay = some (fallback_delay env.duration)) := by
  intro attempts
  induction attempts with
  | nil => intro r h; simp [gst_ispsrc_create] at h
  | cons a rest ih =>
    intro r h
    simp only [gst_ispsrc_create] at h
    by_cases h1 : a.alloc_ret ≠ FlowReturn.OK
    · rw [if_pos h1] at h
      cases h
      exact ⟨hbad, rfl, fun hc => absurd rfl hc⟩
    · rw [if_neg h1] at h
      by_cases h2 : a.process_ret = FlowReturn.V4L2_CORRUPTED_BUFFER
      · rw [if_pos h2] at h
        exact ih r h
      · rw [if_neg h2] at h
        by_cases h3 : a.process_ret ≠ FlowReturn.OK
        · rw [if_pos h3] at h
          cases h
          exact ⟨hbad, rfl, fun hc => absurd rfl hc⟩
        · rw [if_neg h3] at h
          have hretry := create_retry_two a.buf.timestamp env.duration env s
          have hn : ¬ (s.has_bad_timestamp = false ∧ a.buf.timestamp ≠ GST_CLOCK_TIME_NONE) := by
            rw [hbad]
            simp
          rw [if_neg hn] at hretry
          rw [create_annotate_eq s env a.buf _ _ hretry] at h
          cases h
          refine ⟨?_, ?_, fun _ => rfl⟩
          · simp only [(create_offsets_time_fields _ _ _ _).1, hbad]
          · simp only [(create_offsets_time_fields _ _ _ _).2.1]

theorem set_caps_keeps_bad (s : GstISPSrc) (b : Backend) :
    (gst_ispsrc_set_caps s b).src.has_bad_timestamp = s.has_bad_timestamp := by
  unfold gst_ispsrc_set_caps
  split
  · rfl
  · split
    · split <;> rfl
    · split <;> rfl

/-- A call of `gst_ispsrc_decide_allocation` writes no field of the element
other than `pending_set_fmt`. -/
theorem decide_allocation_frame (s : GstISPSrc) (b : Backend) :
    (gst_ispsrc_decide_allocation s b).src = s ∨
      (gst_ispsrc_decide_allocation s b).src = { s with pending_set_fmt := false } := by
  obtain ⟨o, ra, p, hb, lt, ct⟩ := s
  obtain ⟨ce, ia, tf, so, sf, pa, np, npl, al, bp, sz, vd, pd, sa, ul, us⟩ := b
  cases p <;> cases so <;> cases sf <;> cases pa <;> cases vd <;> cases pd <;> cases sa <;>
    simp [gst_ispsrc_decide_allocation, gst_ispsrc_set_format]

theorem decide_allocation_keeps_bad (s : GstISPSrc) (b : Backend) :
    (gst_ispsrc_decide_allocation s b).src.has_bad_timestamp = s.has_bad_timestamp := by
  rcases decide_allocation_frame s b with h | h <;> rw [h]

theorem stop_keeps_bad (s : GstISPSrc) (b : Backend) :
    (gst_ispsrc_stop s b).src.has_bad_timestamp = s.has_bad_timestamp := by
  unfold gst_ispsrc_stop
  split
  · split <;> rfl
  · rfl

theorem step_keeps_bad (s s2 : GstISPSrc) (op : Op) (hbad : s.has_bad_timestamp = true)
    (h : step s op = some s2) : s2.has_bad_timestamp = true := by
  cases op with
  | create env attempts =>
    simp only [step, Option.map_eq_some'] at h
    obtain ⟨r, hr, rfl⟩ := h
    exact (create_when_bad s env hbad attempts r hr).1
  | unlock b =>
    simp only [step, gst_ispsrc_unlock, Option.some.injEq] at h
    rw [← h]; exact hbad
  | unlock_stop b =>
    simp only [step, gst_ispsrc_unlock_stop, Option.some.injEq] at h
    rw [← h]; exact hbad
  | set_caps b =>
    simp only [step, Option.some.injEq] at h
    rw [← h, set_caps_keeps_bad]; exact hbad
  | decide_allocation b =>
    simp only [step, Option.some.injEq] at h
    rw [← h, decide_allocation_keeps_bad]; exact hbad
  | stop b =>
    simp only [step, Option.some.injEq] at h
    rw [← h, stop_keeps_bad]; exact hbad

theorem run_keeps_bad : ∀ (ops : List Op) (s s2 : GstISPSrc),
    s.has_bad_timestamp = true → run s ops = some s2 → s2.has_bad_timestamp = true := by
  intro ops
  induction ops with
  | nil =>
    intro s s2 hbad h
    simp only [run, Option.some.injEq] at h
    rw [← h]; exact hbad
  | cons op rest ih =>
    intro s s2 hbad h
    simp only [run] at h
    cases hs : step s op with
    | none => rw [hs] at h; cases h
    | some next =>
      rw [hs] at h
      exact ih next s2 (step_keeps_bad s next op hbad hs) h

/-- A frame that was acquired is always handed out. -/
theorem create_returns (s : GstISPSrc) (env : CreateEnv) (attempts : List Attempt)
    (buf : GstBuffer) (hacq : acquired attempts = some buf) :
    ∃ r, gst_ispsrc_create s env attempts = some r ∧ r.buf ≠ none ∧ r.ret = FlowReturn.OK := by
  rw [create_of_acquired s env attempts buf hacq]
  exact ⟨_, create_annotate_eq s env buf _ _ (create_retry_two _ _ _ _), by simp, rfl⟩

/-- C5: given `last_timestamp = T0` and a frame whose device time stamp is
`T1 < T0`, `gst_ispsrc_create` sets `has_bad_timestamp`; the flag then stays
set across every later create, unlock, unlock_stop, set_caps,
decide_allocation and stop, and every later frame uses the fallback delay
(the duration, or 0 when it is unknown) and leaves `last_timestamp` as it
was; `gst_ispsrc_start` clears the flag. -/
theorem bad_timestamp_is_sticky (s : GstISPSrc) (env : CreateEnv) (attempts : List Attempt)
    (buf : GstBuffer) (hacq : acquired attempts = some buf)
    (hwt : s.last_timestamp < U64) (hlt : buf.timestamp < s.last_timestamp) :
    ∃ r, gst_ispsrc_create s env attempts = some r ∧
      r.src.has_bad_timestamp = true ∧
      (∀ ops s2, run r.src ops = some s2 →
        s2.has_bad_timestamp = true ∧
        ∀ env2 attempts2 buf2, acquired attempts2 = some buf2 →
          ∃ r2, gst_ispsrc_create s2 env2 attempts2 = some r2 ∧
            r2.delay = some (fallback_delay env2.duration) ∧
            r2.src.last_timestamp = s2.last_timestamp ∧
            r2.src.has_bad_timestamp = true) ∧
      ∀ s3, (gst_ispsrc_start s3).src.has_bad_timestamp = false := by
  have hset : ∃ r, gst_ispsrc_create s env attempts = some r ∧
      r.src.has_bad_timestamp = true := by
    cases hb : s.has_bad_timestamp with
    | true =>
      obtain ⟨r, hr, _, _⟩ := create_returns s env attempts buf hacq
      exact ⟨r, hr, (create_when_bad s env hb attempts r hr).1⟩
    | false =>
      have hne : buf.timestamp ≠ GST_CLOCK_TIME_NONE := by
        unfold GST_CLOCK_TIME_NONE
        unfold U64 at hwt
        omega
      have hretry := create_retry_two buf.timestamp env.duration env s
      rw [if_pos ⟨hb, hne⟩, if_pos (Or.inr (Or.inl hlt))] at hretry
      rw [create_of_acquired s env attempts buf hacq]
      refine ⟨_, create_annotate_eq s env buf _ _ hretry, ?_⟩
      simp only [(create_offsets_time_fields _ _ _ _).1]
  obtain ⟨r, hr, hbad⟩ := hset
  refine ⟨r, hr, hbad, ?_, fun s3 => rfl⟩
  intro ops s2 hrun
  have hbad2 := run_keeps_bad ops r.src s2 hbad hrun
  refine ⟨hbad2, ?_⟩
  intro env2 attempts2 buf2 hacq2
  obtain ⟨r2, hr2, hbuf, _⟩ := create_returns s2 env2 attempts2 buf2 hacq2
  obtain ⟨h1, h2, h3⟩ := create_when_bad s2 env2 hbad2 attempts2 r2 hr2
  exact ⟨r2, hr2, h3 hbuf, h2, h1⟩

/-- C5, at a concrete frame: last accepted time stamp 4 s, device time stamp
3 s. -/
theorem bad_timestamp_is_sticky_witness :
    ∃ r, gst_ispsrc_create sample_src sample_env [good sample_late_buf] = some r ∧
      r.src.has_bad_timestamp = true ∧
      (∀ ops s2, run r.src ops = some s2 →
        s2.has_bad_timestamp = true ∧
        ∀ env2 attempts2 buf2, acquired attempts2 = some buf2 →
          ∃ r2, gst_ispsrc_create s2 env2 attempts2 = some r2 ∧
            r2.delay = some (fallback_delay env2.duration) ∧
            r2.src.last_timestamp = s2.last_timestamp ∧
            r2.src.has_bad_timestamp = true) ∧
      ∀ s3, (gst_ispsrc_start s3).src.has_bad_timestamp = false :=
  bad_timestamp_is_sticky sample_src sample_env [good sample_late_buf] sample_late_buf
    (acquired_good sample_late_buf) (by decide) (by decide)

/-! ## The output time stamp -/

/-- C6, counterexample: a clock is attached, its reading is 5 and the base time
is 10; no device time stamp and no duration, so the delay is 0. The claimed
time stamp is `max 0 ((5 - 10) - 0) = 0`, but the unsigned subtraction wraps
and the buffer is stamped `2 ^ 64 - 5`. -/
theorem output_timestamp_wraps_below_base_time :
    (gst_ispsrc_create (gst_ispsrc_start sample_src).src
        { duration := GST_CLOCK_TIME_NONE, clock := some { abs_time := 5, base_time := 10 },
          monotonic_now := 0, realtime_now := 0 }
        [good { timestamp := GST_CLOCK_TIME_NONE, duration := GST_CLOCK_TIME_NONE,
                offset := GST_BUFFER_OFFSET_NONE,
                offset_end := GST_BUFFER_OFFSET_NONE }]).map
        (fun r => (r.delay, r.buf.map (fun b => b.timestamp))) =
      some (some 0, some (2 ^ 64 - 5)) ∧
      max (0 : Int) (((5 : Int) - 10) - 0) = 0 := by
  decide

theorem output_timestamp_no_clock (d : Nat) : output_timestamp none d = GST_CLOCK_TIME_NONE := by
  simp [output_timestamp]

theorem output_timestamp_clock_none (c : ClockSample) (d : Nat)
    (h : c.abs_time = GST_CLOCK_TIME_NONE) :
    output_timestamp (some c) d = GST_CLOCK_TIME_NONE := by
  simp [output_timestamp, h]

theorem output_timestamp_running (c : ClockSample) (d : Nat)
    (habs : c.abs_time < GST_CLOCK_TIME_NONE) (hbase : c.base_time ≤ c.abs_time) :
    ((output_timestamp (some c) d : Nat) : Int) =
      max 0 (((c.abs_time : Int) - (c.base_time : Int)) - (d : Int)) := by
  have hlt : c.abs_time < U64 := by
    unfold GST_CLOCK_TIME_NONE at habs
    unfold U64
    omega
  have hne : c.abs_time ≠ GST_CLOCK_TIME_NONE := Nat.ne_of_lt habs
  simp only [output_timestamp, ne_eq, hne, not_false_eq_true, if_true]
  rw [u64sub_of_le _ _ hbase hlt]
  by_cases hd : c.abs_time - c.base_time > d
  · rw [if_pos hd, u64sub_of_le _ _ (Nat.le_of_lt hd) (by omega)]
    omega
  · rw [if_neg hd]
    omega

/-- C6, amended: if no clock is attached, or the reading of the attached clock
is itself `GST_CLOCK_TIME_NONE`, the time stamp set on the buffer is
`GST_CLOCK_TIME_NONE`; if a clock is attached, its reading is valid and not
below the base time, the time stamp is
`max 0 ((abs_time - base_time) - delay)`. -/
theorem output_timestamp_clamped (s : GstISPSrc) (env : CreateEnv) (attempts : List Attempt)
    (buf : GstBuffer) (hacq : acquired attempts = some buf) :
    ∃ r d out, gst_ispsrc_create s env attempts = some r ∧ r.delay = some d ∧
      r.buf = some out ∧
      (env.clock = none → out.timestamp = GST_CLOCK_TIME_NONE) ∧
      (∀ c, env.clock = some c → c.abs_time = GST_CLOCK_TIME_NONE →
        out.timestamp = GST_CLOCK_TIME_NONE) ∧
      (∀ c, env.clock = some c → c.abs_time < GST_CLOCK_TIME_NONE →
        c.base_time ≤ c.abs_time →
        (out.timestamp : Int) =
          max 0 (((c.abs_time : Int) - (c.base_time : Int)) - (d : Int))) := by
  rw [create_of_acquired s env attempts buf hacq]
  refine ⟨_, _, _, create_annotate_eq s env buf _ _ (create_retry_two _ _ _ _), rfl, rfl,
    ?_, ?_, ?_⟩
  · intro hc
    simp only [hc, output_timestamp_no_clock]
  · intro c hc habs
    simp only [hc, output_timestamp_clock_none c _ habs]
  · intro c hc habs hbase
    simp only [hc]
    exact output_timestamp_running c _ habs hbase

/-- C6 amended, at a concrete frame: clock at 9 s, base time 1 s. -/
theorem output_timestamp_clamped_witness :
    ∃ r d out, gst_ispsrc_create sample_src sample_env [good sample_buf] = some r ∧
      r.delay = some d ∧ r.buf = some out ∧
      (sample_env.clock = none → out.timestamp = GST_CLOCK_TIME_NONE) ∧
      (∀ c, sample_env.clock = some c → c.abs_time = GST_CLOCK_TIME_NONE →
        out.timestamp = GST_CLOCK_TIME_NONE) ∧
      (∀ c, sample_env.clock = some c → c.abs_time < GST_CLOCK_TIME_NONE →
        c.base_time ≤ c.abs_time →
        (out.timestamp : Int) =
          max 0 (((c.abs_time : Int) - (c.base_time : Int)) - (d : Int))) :=
  output_timestamp_clamped sample_src sample_env [good sample_buf] sample_buf
    (acquired_good sample_buf)

/-! ## Offsets and lost frames -/

theorem create_retry_keeps_offsets (ts dur : Nat) (env : CreateEnv) (s s1 : GstISPSrc) (d : Nat)
    (h : create_retry ts dur env 2 s = some (s1, d)) :
    s1.offset = s.offset ∧ s1.renegotiation_adjust = s.renegotiation_adjust ∧
      s1.pending_set_fmt = s.pending_set_fmt := by
  rw [create_retry_two] at h
  simp only [Option.some.injEq] at h
  split at h
  · split at h <;>
      · cases h
        exact ⟨rfl, rfl, rfl⟩
  · cases h
    exact ⟨rfl, rfl, rfl⟩

theorem create_offsets_valid (s : GstISPSrc) (buf : GstBuffer) (ts dur : Nat)
    (ho : buf.offset ≠ GST_BUFFER_OFFSET_NONE) (hoe : buf.offset_end ≠ GST_BUFFER_OFFSET_NONE) :
    create_offsets s buf ts dur =
      ({ s with offset := u64add buf.offset s.renegotiation_adjust },
       { buf with
          offset := u64add buf.offset s.renegotiation_adjust,
          offset_end := u64add buf.offset_end s.renegotiation_adjust },
       if s.offset ≠ 0 ∧ u64add buf.offset s.renegotiation_adjust ≠ u64add s.offset 1 then
         [{ lost_frame_count :=
              u64sub (u64sub (u64add buf.offset s.renegotiation_adjust) s.offset) 1,
            timestamp := ts,
            duration :=
              if GST_CLOCK_TIME_IS_VALID dur then
                u64mul (u64sub (u64sub (u64add buf.offset s.renegotiation_adjust) s.offset) 1)
                  dur
              else GST_CLOCK_TIME_NONE }]
       else []) := by
  unfold create_offsets
  rw [if_neg (by simp [ho, hoe])]

/-- What `gst_ispsrc_create` does with a frame whose backend offsets are both
valid. -/
theorem create_valid_offsets (s : GstISPSrc) (env : CreateEnv) (attempts : List Attempt)
    (buf : GstBuffer) (hacq : acquired attempts = some buf)
    (ho : buf.offset ≠ GST_BUFFER_OFFSET_NONE) (hoe : buf.offset_end ≠ GST_BUFFER_OFFSET_NONE) :
    ∃ r out, gst_ispsrc_create s env attempts = some r ∧ r.buf = some out ∧
      r.src.offset = u64add buf.offset s.renegotiation_adjust ∧
      r.src.renegotiation_adjust = s.renegotiation_adjust ∧
      out.offset = u64add buf.offset s.renegotiation_adjust ∧
      r.lost =
        if s.offset ≠ 0 ∧ u64add buf.offset s.renegotiation_adjust ≠ u64add s.offset 1 then
          [{ lost_frame_count :=
               u64sub (u64sub (u64add buf.offset s.renegotiation_adjust) s.offset) 1,
             timestamp := out.timestamp,
             duration :=
               if GST_CLOCK_TIME_IS_VALID env.duration then
                 u64mul (u64sub (u64sub (u64add buf.offset s.renegotiation_adjust) s.offset) 1)
                   env.duration
               else GST_CLOCK_TIME_NONE }]
        else [] := by
  rw [create_of_acquired s env attempts buf hacq]
  cases hre : create_retry buf.timestamp env.duration env 2 s with
  | none => rw [create_retry_two] at hre; cases hre
  | some p =>
    obtain ⟨s1, d⟩ := p
    obtain ⟨k1, k2, _⟩ := create_retry_keeps_offsets _ _ _ _ _ _ hre
    refine ⟨_, _, create_annotate_eq s env buf s1 d hre, rfl, ?_, ?_, ?_, ?_⟩ <;>
      simp only [create_offsets_valid _ _ _ _ ho hoe, k1, k2]

theorem u64add_lt (a b : Nat) : u64add a b < U64 :=
  Nat.mod_lt _ (by unfold U64; positivity)

theorem run_frames_cons (s : GstISPSrc) (env : CreateEnv) (attempts : List Attempt)
    (rest : List (CreateEnv × List Attempt)) (r : CreateResult)
    (h : gst_ispsrc_create s env attempts = some r) :
    run_frames s ((env, attempts) :: rest) = (run_frames r.src rest).map (fun rs => r :: rs) := by
  simp only [run_frames, h]

/-- From a fresh start, frames with backend offsets 1, 2, 3, 6 and no
renegotiation give exactly one loss report, at the 6, with lost count 2. -/
theorem loss_scenario (s0 : GstISPSrc) (e1 e2 e3 e4 : CreateEnv) (a1 a2 a3 a4 : List Attempt)
    (b1 b2 b3 b4 : GstBuffer)
    (q1 : acquired a1 = some b1) (q2 : acquired a2 = some b2)
    (q3 : acquired a3 = some b3) (q4 : acquired a4 = some b4)
    (o1 : b1.offset = 1) (o2 : b2.offset = 2) (o3 : b3.offset = 3) (o4 : b4.offset = 6)
    (v1 : b1.offset_end ≠ GST_BUFFER_OFFSET_NONE) (v2 : b2.offset_end ≠ GST_BUFFER_OFFSET_NONE)
    (v3 : b3.offset_end ≠ GST_BUFFER_OFFSET_NONE)
    (v4 : b4.offset_end ≠ GST_BUFFER_OFFSET_NONE) :
    ∃ r1 r2 r3 r4,
      run_frames (gst_ispsrc_start s0).src [(e1, a1), (e2, a2), (e3, a3), (e4, a4)] =
        some [r1, r2, r3, r4] ∧
      r1.lost = [] ∧ r2.lost = [] ∧ r3.lost = [] ∧
      r4.lost.map (fun m => m.lost_frame_count) = [2] ∧
      r4.src.offset = 6 := by
  have n1 : b1.offset ≠ GST_BUFFER_OFFSET_NONE := by rw [o1]; decide
  have n2 : b2.offset ≠ GST_BUFFER_OFFSET_NONE := by rw [o2]; decide
  have n3 : b3.offset ≠ GST_BUFFER_OFFSET_NONE := by rw [o3]; decide
  have n4 : b4.offset ≠ GST_BUFFER_OFFSET_NONE := by rw [o4]; decide
  obtain ⟨r1, _, h1, _, f1, g1, _, l1⟩ :=
    create_valid_offsets (gst_ispsrc_start s0).src e1 a1 b1 q1 n1 v1
  obtain ⟨r2, _, h2, _, f2, g2, _, l2⟩ := create_valid_offsets r1.src e2 a2 b2 q2 n2 v2
  obtain ⟨r3, _, h3, _, f3, g3, _, l3⟩ := create_valid_offsets r2.src e3 a3 b3 q3 n3 v3
  obtain ⟨r4, _, h4, _, f4, g4, _, l4⟩ := create_valid_offsets r3.src e4 a4 b4 q4 n4 v4
  have z0 : (gst_ispsrc_start s0).src.offset = 0 := rfl
  have z1 : (gst_ispsrc_start s0).src.renegotiation_adjust = 0 := rfl
  rw [z1] at g1
  rw [g1] at g2
  rw [g2] at g3
  rw [o1, z1] at f1
  rw [o2, g1] at f2
  rw [o3, g2] at f3
  rw [o4, g3] at f4
  have c1 : u64add 1 0 = 1 := by decide
  have c2 : u64add 2 0 = 2 := by decide
  have c3 : u64add 3 0 = 3 := by decide
  have c4 : u64add 6 0 = 6 := by decide
  rw [c1] at f1
  rw [c2] at f2
  rw [c3] at f3
  rw [c4] at f4
  refine ⟨r1, r2, r3, r4, ?_, ?_, ?_, ?_, ?_, f4⟩
  · rw [run_frames_cons _ _ _ _ _ h1, run_frames_cons _ _ _ _ _ h2,
      run_frames_cons _ _ _ _ _ h3, run_frames_cons _ _ _ _ _ h4]
    rfl
  · rw [l1, z0]
    simp
  · rw [l2, f1, o2, g1, c2]
    have : u64add 1 1 = 2 := by decide
    simp [this]
  · rw [l3, f2, o3, g2, c3]
    have : u64add 2 1 = 3 := by decide
    simp [this]
  · rw [l4, f3, o4, g3, c4]
    have k1 : u64add 3 1 = 4 := by decide
    have k2 : u64sub (u64sub 6 3) 1 = 2 := by decide
    simp [k1, k2]

/-- C7: for a frame whose backend start and end offsets are both valid, with
`st` the backend start plus `renegotiation_adjust` (as `guint64`):
`gst_ispsrc_create` posts a QoS loss message exactly when `offset ≠ 0` and
`st ≠ offset + 1`; the lost-frame count is `st - offset - 1` and the lost
duration is the count times the frame duration, or `GST_CLOCK_TIME_NONE` when
the duration is unknown; in every case `offset` becomes `st`. From a fresh
start, backend starts 1, 2, 3, 6 without renegotiation give exactly one
message, at the 6, with lost count 2. -/
theorem create_loss_detection (s : GstISPSrc) (env : CreateEnv) (attempts : List Attempt)
    (buf : GstBuffer) (hacq : acquired attempts = some buf)
    (ho : buf.offset ≠ GST_BUFFER_OFFSET_NONE) (hoe : buf.offset_end ≠ GST_BUFFER_OFFSET_NONE) :
    (∃ r out, gst_ispsrc_create s env attempts = some r ∧ r.buf = some out ∧
      (r.lost ≠ [] ↔
        (s.offset ≠ 0 ∧ u64add buf.offset s.renegotiation_adjust ≠ u64add s.offset 1)) ∧
      (r.lost ≠ [] →
        r.lost =
          [{ lost_frame_count :=
               u64sub (u64sub (u64add buf.offset s.renegotiation_adjust) s.offset) 1,
             timestamp := out.timestamp,
             duration :=
               if env.duration = GST_CLOCK_TIME_NONE then GST_CLOCK_TIME_NONE
               else
                 u64mul (u64sub (u64sub (u64add buf.offset s.renegotiation_adjust) s.offset) 1)
                   env.duration }]) ∧
      r.src.offset = u64add buf.offset s.renegotiation_adjust ∧
      out.offset = u64add buf.offset s.renegotiation_adjust) ∧
    (buf.offset + s.renegotiation_adjust < U64 →
      s.offset + 1 ≤ buf.offset + s.renegotiation_adjust →
      u64add buf.offset s.renegotiation_adjust = buf.offset + s.renegotiation_adjust ∧
        u64add s.offset 1 = s.offset + 1 ∧
        u64sub (u64sub (u64add buf.offset s.renegotiation_adjust) s.offset) 1 =
          buf.offset + s.renegotiation_adjust - s.offset - 1) ∧
    (∀ (s0 : GstISPSrc) (e1 e2 e3 e4 : CreateEnv) (b1 b2 b3 b4 : GstBuffer),
      b1.offset = 1 → b2.offset = 2 → b3.offset = 3 → b4.offset = 6 →
      b1.offset_end ≠ GST_BUFFER_OFFSET_NONE → b2.offset_end ≠ GST_BUFFER_OFFSET_NONE →
      b3.offset_end ≠ GST_BUFFER_OFFSET_NONE → b4.offset_end ≠ GST_BUFFER_OFFSET_NONE →
      ∃ r1 r2 r3 r4,
        run_frames (gst_ispsrc_start s0).src
            [(e1, [good b1]), (e2, [good b2]), (e3, [good b3]), (e4, [good b4])] =
          some [r1, r2, r3, r4] ∧
        r1.lost = [] ∧ r2.lost = [] ∧ r3.lost = [] ∧
        r4.lost.map (fun m => m.lost_frame_count) = [2] ∧
        r4.src.offset = 6) := by
  refine ⟨?_, ?_, ?_⟩
  · obtain ⟨r, out, hr, hout, hoff, _, hpub, hlost⟩ :=
      create_valid_offsets s env attempts buf hacq ho hoe
    refine ⟨r, out, hr, hout, ?_, ?_, hoff, hpub⟩
    · rw [hlost]
      by_cases hc : s.offset ≠ 0 ∧
          u64add buf.offset s.renegotiation_adjust ≠ u64add s.offset 1
      · rw [if_pos hc]
        simp [hc]
      · rw [if_neg hc]
        simp [hc]
    · intro hne
      rw [hlost] at hne ⊢
      by_cases hc : s.offset ≠ 0 ∧
          u64add buf.offset s.renegotiation_adjust ≠ u64add s.offset 1
      · rw [if_pos hc]
        by_cases hd : env.duration = GST_CLOCK_TIME_NONE
        · simp [hd, GST_CLOCK_TIME_IS_VALID]
        · simp [hd, GST_CLOCK_TIME_IS_VALID]
      · rw [if_neg hc] at hne
        exact absurd rfl hne
  · intro hlt hle
    have e1 : u64add buf.offset s.renegotiation_adjust =
        buf.offset + s.renegotiation_adjust := Nat.mod_eq_of_lt hlt
    have e2 : u64add s.offset 1 = s.offset + 1 := Nat.mod_eq_of_lt (by omega)
    refine ⟨e1, e2, ?_⟩
    rw [e1, u64sub_of_le _ _ (by omega) hlt, u64sub_of_le _ _ (by omega) (by omega)]
  · intro s0 e1 e2 e3 e4 b1 b2 b3 b4 o1 o2 o3 o4 v1 v2 v3 v4
    exact loss_scenario s0 e1 e2 e3 e4 _ _ _ _ b1 b2 b3 b4 (acquired_good b1)
      (acquired_good b2) (acquired_good b3) (acquired_good b4) o1 o2 o3 o4 v1 v2 v3 v4

/-- C7, at a concrete frame: seven frames out and the backend reports
offset 10, so two frames were lost. -/
theorem create_loss_detection_witness :
    ∃ r out, gst_ispsrc_create sample_src sample_env [good sample_gap_buf] = some r ∧
      r.buf = some out ∧
      (r.lost ≠ [] ↔
        (sample_src.offset ≠ 0 ∧
          u64add sample_gap_buf.offset sample_src.renegotiation_adjust ≠
            u64add sample_src.offset 1)) ∧
      r.src.offset = u64add sample_gap_buf.offset sample_src.renegotiation_adjust ∧
      u64sub (u64sub (u64add sample_gap_buf.offset sample_src.renegotiation_adjust)
        sample_src.offset) 1 = 2 := by
  obtain ⟨⟨r, out, hr, hb, hiff, _, hoff, _⟩, _, _⟩ :=
    create_loss_detection sample_src sample_env [good sample_gap_buf] sample_gap_buf
      (acquired_good sample_gap_buf) (by decide) (by decide)
  exact ⟨r, out, hr, hb, hiff, hoff, by decide⟩

/-! ## Offsets across a live format change -/

/-- Frames with consecutive backend offsets from `k` on, received in a state
where `k + renegotiation_adjust = offset + 1` as `guint64`, get consecutive
public offsets and no loss report. -/
theorem frames_continuous :
    ∀ (frames : List (CreateEnv × GstBuffer)) (k : Nat) (s : GstISPSrc),
      consecutive_from k frames →
      u64add k s.renegotiation_adjust = u64add s.offset 1 →
      ∃ rs, run_frames s (frames.map (fun f => (f.1, [good f.2]))) = some rs ∧
        rs.length = frames.length ∧
        ∀ i r, rs[i]? = some r →
          r.lost = [] ∧
            r.buf.map (fun b => b.offset) = some (u64add (k + i) s.renegotiation_adjust) := by
  intro frames
  induction frames with
  | nil =>
    intro k s _ _
    refine ⟨[], rfl, rfl, fun i r h => ?_⟩
    simp at h
  | cons f rest ih =>
    intro k s hcons hk
    obtain ⟨hoff, hv, hve, hrest⟩ := hcons
    obtain ⟨r, out, hr, hout, hsoff, hadj, hpub, hlost⟩ :=
      create_valid_offsets s f.1 [good f.2] f.2 (acquired_good f.2) hv hve
    have hnext : u64add (k + 1) r.src.renegotiation_adjust = u64add r.src.offset 1 := by
      rw [hadj, hsoff, hoff]
      unfold u64add
      rw [Nat.mod_add_mod]
      congr 1
      omega
    obtain ⟨rs, hrs, hlen, hall⟩ := ih (k + 1) r.src hrest hnext
    refine ⟨r :: rs, ?_, by simp [hlen], ?_⟩
    · rw [List.map_cons, run_frames_cons s f.1 [good f.2] _ r hr, hrs]
      rfl
    · intro i r2 hi
      cases i with
      | zero =>
        simp only [List.getElem?_cons_zero, Option.some.injEq] at hi
        subst hi
        refine ⟨?_, ?_⟩
        · rw [hlost, hoff, if_neg]
          intro hc
          exact hc.2 hk
        · rw [hout, Option.map_some', hpub, hoff]
          rfl
      | succ j =>
        simp only [List.getElem?_cons_succ] at hi
        obtain ⟨h1, h2⟩ := hall j r2 hi
        refine ⟨h1, ?_⟩
        rw [h2, hadj]
        congr 2
        omega

/-- C8: for every `N`, a live format change accepted by `gst_ispsrc_set_caps`
while `offset = N` (caps differ, backend active, try-format succeeds) sets
`renegotiation_adjust` to `N + 1` and leaves `offset` at `N`; the next frames,
with backend offsets 0, 1, 2, ..., then get the public offsets `N + 1`,
`N + 2`, `N + 3`, ... (as `guint64`) and `gst_ispsrc_create` posts no loss
message for any of them, whether or not `gst_ispsrc_decide_allocation` ran in
between. -/
theorem renegotiation_keeps_offsets_continuous (s : GstISPSrc) (b : Backend)
    (frames : List (CreateEnv × GstBuffer))
    (hce : b.caps_equal = false) (hact : b.is_active = true) (htry : b.try_format_ok = true)
    (hcons : consecutive_from 0 frames) :
    (gst_ispsrc_set_caps s b).ret = true ∧
    (gst_ispsrc_set_caps s b).src.renegotiation_adjust = (s.offset + 1) % U64 ∧
    (gst_ispsrc_set_caps s b).src.offset = s.offset ∧
    (∃ rs, run_frames (gst_ispsrc_set_caps s b).src
          (frames.map (fun f => (f.1, [good f.2]))) = some rs ∧
      rs.length = frames.length ∧
      ∀ i r, rs[i]? = some r →
        r.lost = [] ∧ r.buf.map (fun m => m.offset) = some ((s.offset + 1 + i) % U64)) ∧
    (∀ b2, ∃ rs,
      run_frames (gst_ispsrc_decide_allocation (gst_ispsrc_set_caps s b).src b2).src
          (frames.map (fun f => (f.1, [good f.2]))) = some rs ∧
      rs.length = frames.length ∧
      ∀ i r, rs[i]? = some r →
        r.lost = [] ∧ r.buf.map (fun m => m.offset) = some ((s.offset + 1 + i) % U64)) := by
  have hsc : gst_ispsrc_set_caps s b =
      { ret := true,
        src := { s with renegotiation_adjust := u64add s.offset 1, pending_set_fmt := true },
        calls := [Call.v4l2_object_try_format] } := by
    simp [gst_ispsrc_set_caps, hce, hact, htry]
  have harith : ∀ i, u64add (0 + i) (u64add s.offset 1) = (s.offset + 1 + i) % U64 := by
    intro i
    unfold u64add
    rw [Nat.add_mod_mod]
    congr 1
    omega
  have hgen : ∀ s2 : GstISPSrc, s2.offset = s.offset →
      s2.renegotiation_adjust = u64add s.offset 1 →
      ∃ rs, run_frames s2 (frames.map (fun f => (f.1, [good f.2]))) = some rs ∧
        rs.length = frames.length ∧
        ∀ i r, rs[i]? = some r →
          r.lost = [] ∧ r.buf.map (fun m => m.offset) = some ((s.offset + 1 + i) % U64) := by
    intro s2 h1 h2
    have hk : u64add 0 s2.renegotiation_adjust = u64add s2.offset 1 := by
      rw [h1, h2]
      unfold u64add
      rw [Nat.zero_add, Nat.mod_mod]
    obtain ⟨rs, hrs, hlen, hall⟩ := frames_continuous frames 0 s2 hcons hk
    refine ⟨rs, hrs, hlen, fun i r hi => ?_⟩
    obtain ⟨g1, g2⟩ := hall i r hi
    refine ⟨g1, ?_⟩
    rw [g2, h2, harith]
  rw [hsc]
  refine ⟨rfl, rfl, rfl, hgen _ rfl rfl, fun b2 => ?_⟩
  rcases decide_allocation_frame
      { s with renegotiation_adjust := u64add s.offset 1, pending_set_fmt := true } b2 with
    h | h <;>
    · rw [h]
      exact hgen _ rfl rfl

/-- C8, at a concrete session: the format changes after seven frames and three
frames follow with backend offsets 0, 1, 2. -/
theorem renegotiation_keeps_offsets_continuous_witness :
    ∃ rs, run_frames (gst_ispsrc_set_caps sample_src sample_backend).src
          ([(sample_env, { sample_buf with offset := 0, offset_end := 1 }),
            (sample_env, { sample_buf with offset := 1, offset_end := 2 }),
            (sample_env, { sample_buf with offset := 2, offset_end := 3 })].map
              (fun f => (f.1, [good f.2]))) = some rs ∧
      rs.length = 3 ∧
      ∀ i r, rs[i]? = some r →
        r.lost = [] ∧
          r.buf.map (fun m => m.offset) = some ((sample_src.offset + 1 + i) % U64) :=
  (renegotiation_keeps_offsets_continuous sample_src sample_backend
    [(sample_env, { sample_buf with offset := 0, offset_end := 1 }),
     (sample_env, { sample_buf with offset := 1, offset_end := 2 }),
     (sample_env, { sample_buf with offset := 2, offset_end := 3 })]
    rfl rfl rfl (by simp [consecutive_from, sample_buf, GST_BUFFER_OFFSET_NONE])).2.2.2.1

/-! ## The latency query -/

theorem foldl_best_some {α : Type} (f : Option α → α → Option α)
    (hf : ∀ b x, ∃ y, f (some b) x = some y) :
    ∀ (vs : List α) (b : α), ∃ y, vs.foldl f (some b) = some y := by
  intro vs
  induction vs with
  | nil => intro b; exact ⟨b, rfl⟩
  | cons x rest ih =>
    intro b
    obtain ⟨y, hy⟩ := hf b x
    rw [List.foldl_cons, hy]
    exact ih y

theorem nearest_int_shape (v : IntValue) (t : Int) :
    (∃ x, gst_structure_fixate_field_nearest_int v t = IntValue.fixed x) ∨
      gst_structure_fixate_field_nearest_int v t = IntValue.list [] := by
  cases v with
  | fixed x => exact Or.inl ⟨x, rfl⟩
  | range lo hi => exact Or.inl ⟨_, rfl⟩
  | list vs =>
    cases vs with
    | nil => exact Or.inr rfl
    | cons x rest =>
      left
      simp only [gst_structure_fixate_field_nearest_int, List.foldl_cons]
      obtain ⟨y, hy⟩ := foldl_best_some
        (fun (best : Option Int) (x : Int) =>
          match best with
          | none => some x
          | some b => if |t - x| < |t - b| then some x else some b)
        (by
          intro b x
          by_cases h : |t - x| < |t - b|
          · exact ⟨x, by simp [h]⟩
          · exact ⟨b, by simp [h]⟩) rest x
      rw [hy]
      exact ⟨y, rfl⟩

theorem nearest_fraction_shape (v : FracValue) (t_n t_d : Int) :
    (∃ n d, gst_structure_fixate_field_nearest_fraction v t_n t_d = FracValue.fixed n d) ∨
      gst_structure_fixate_field_nearest_fraction v t_n t_d = FracValue.list [] := by
  cases v with
  | fixed n d => exact Or.inl ⟨n, d, rfl⟩
  | range a b c d => exact Or.inl ⟨_, _, rfl⟩
  | list vs =>
    cases vs with
    | nil => exact Or.inr rfl
    | cons x rest =>
      left
      simp only [gst_structure_fixate_field_nearest_fraction, List.foldl_cons]
      obtain ⟨y, hy⟩ := foldl_best_some
        (fun (best : Option (Int × Int)) (x : Int × Int) =>
          match best with
          | none => some x
          | some b =>
            if fraction_distance t_n t_d x.1 x.2 < fraction_distance t_n t_d b.1 b.2 then some x
            else some b)
        (by
          intro b x
          by_cases h : fraction_distance t_n t_d x.1 x.2 < fraction_distance t_n t_d b.1 b.2
          · exact ⟨x, by simp [h]⟩
          · exact ⟨b, by simp [h]⟩) rest x
      rw [hy]
      exact ⟨y.1, y.2, rfl⟩

theorem fixate_field_shape (v : StrValue) :
    (∃ x, gst_structure_fixate_field v = StrValue.fixed x) ∨
      gst_structure_fixate_field v = StrValue.list [] := by
  cases v with
  | fixed x => exact Or.inl ⟨x, rfl⟩
  | list ss =>
    cases ss with
    | nil => exact Or.inr rfl
    | cons x rest => exact Or.inl ⟨x, rfl⟩

/-- Fixating the width or height of a structure a second time changes
nothing. -/
theorem int_field_idempotent (v : IntValue) (t : Int) :
    gst_value_fixate_int (gst_structure_fixate_field_nearest_int
        (gst_value_fixate_int (gst_structure_fixate_field_nearest_int v t)) t) =
      gst_value_fixate_int (gst_structure_fixate_field_nearest_int v t) := by
  rcases nearest_int_shape v t with ⟨x, h⟩ | h <;> rw [h] <;> rfl

theorem fraction_field_idempotent (v : FracValue) (t_n t_d : Int) :
    gst_value_fixate_fraction (gst_structure_fixate_field_nearest_fraction
        (gst_value_fixate_fraction (gst_structure_fixate_field_nearest_fraction v t_n t_d))
        t_n t_d) =
      gst_value_fixate_fraction (gst_structure_fixate_field_nearest_fraction v t_n t_d) := by
  rcases nearest_fraction_shape v t_n t_d with ⟨n, d, h⟩ | h <;> rw [h] <;> rfl

theorem str_field_idempotent (v : StrValue) :
    gst_structure_fixate_field (gst_structure_fixate_field
        (gst_structure_fixate_field (gst_structure_fixate_field v))) =
      gst_structure_fixate_field (gst_structure_fixate_field v) := by
  rcases fixate_field_shape v with ⟨x, h⟩ | h <;> rw [h] <;> rfl

theorem structure_fixation_idempotent (s : GstStructure) :
    gst_structure_fixate (fixate_structure (gst_structure_fixate (fixate_structure s))) =
      gst_structure_fixate (fixate_structure s) := by
  obtain ⟨w, h, fr, fo, im⟩ := s
  simp only [gst_structure_fixate, fixate_structure, Option.map_map, GstStructure.mk.injEq]
  refine ⟨?_, ?_, ?_, ?_, ?_⟩
  · cases w with
    | none => rfl
    | some v => simp only [Option.map_some', Function.comp_apply, int_field_idempotent]
  · cases h with
    | none => rfl
    | some v => simp only [Option.map_some', Function.comp_apply, int_field_idempotent]
  · cases fr with
    | none => rfl
    | some v => simp only [Option.map_some', Function.comp_apply, fraction_field_idempotent]
  · cases fo with
    | none => rfl
    | some v => simp only [Option.map_some', Function.comp_apply, str_field_idempotent]
  · cases im with
    | none => rfl
    | some v => simp only [Option.map_some', Function.comp_apply, str_field_idempotent]

/-- Applying `gst_ispsrc_fixate` to one of its results returns it unchanged. -/
theorem fixate_idempotent (caps c1 : GstCaps) (h : gst_ispsrc_fixate caps = some c1) :
    gst_ispsrc_fixate c1 = some c1 := by
  cases caps with
  | any => simp [gst_ispsrc_fixate, gst_base_src_default_fixate] at h
  | structs l =>
    cases l with
    | nil =>
      simp only [gst_ispsrc_fixate, List.map_nil, gst_base_src_default_fixate,
        Option.some.injEq] at h
      subst h
      rfl
    | cons s rest =>
      simp only [gst_ispsrc_fixate, List.map_cons, gst_base_src_default_fixate,
        Option.some.injEq] at h
      subst h
      simp only [gst_ispsrc_fixate, List.map_cons, List.map_nil, gst_base_src_default_fixate,
        structure_fixation_idempotent]

/-- C10, counterexample: on a descriptor whose width, height and frame rate
are all unconstrained, that is absent, `gst_ispsrc_fixate` fixes nothing: the
result has no width, no height and no frame rate, rather than 320, 200 and
100/1. -/
theorem fixate_leaves_unconstrained_fields :
    gst_ispsrc_fixate (GstCaps.structs [unconstrained]) =
        some (GstCaps.structs [unconstrained]) ∧
      unconstrained.width ≠ some (IntValue.fixed 320) ∧
      unconstrained.height ≠ some (IntValue.fixed 200) ∧
      unconstrained.framerate ≠ some (FracValue.fixed 100 1) := by
  decide

/-- C10, amended: `gst_ispsrc_fixate` applied to a descriptor whose width,
height and frame rate are ranges containing 320, 200 and 100/1 yields exactly
width 320, height 200 and frame rate 100/1; a width, height or frame rate that
is unconstrained (absent) stays absent; and applying `gst_ispsrc_fixate` to any
of its results returns that result unchanged. -/
theorem fixate_defaults (s : GstStructure) (rest : List GstStructure)
    (wlo whi hlo hhi lo_n lo_d hi_n hi_d : Int)
    (hw : s.width = some (IntValue.range wlo whi)) (hw1 : wlo ≤ 320) (hw2 : 320 ≤ whi)
    (hh : s.height = some (IntValue.range hlo hhi)) (hh1 : hlo ≤ 200) (hh2 : 200 ≤ hhi)
    (hf : s.framerate = some (FracValue.range lo_n lo_d hi_n hi_d))
    (hf1 : lo_n ≤ 100 * lo_d) (hf2 : 100 * hi_d ≤ hi_n) :
    (∃ out, gst_ispsrc_fixate (GstCaps.structs (s :: rest)) = some (GstCaps.structs [out]) ∧
      out.width = some (IntValue.fixed 320) ∧
      out.height = some (IntValue.fixed 200) ∧
      out.framerate = some (FracValue.fixed 100 1)) ∧
    (∀ s2 rest2, ∃ out,
      gst_ispsrc_fixate (GstCaps.structs (s2 :: rest2)) = some (GstCaps.structs [out]) ∧
      (s2.width = none → out.width = none) ∧
      (s2.height = none → out.height = none) ∧
      (s2.framerate = none → out.framerate = none)) ∧
    (∀ caps c1, gst_ispsrc_fixate caps = some c1 → gst_ispsrc_fixate c1 = some c1) := by
  refine ⟨⟨_, rfl, ?_, ?_, ?_⟩, fun s2 rest2 => ⟨_, rfl, ?_, ?_, ?_⟩, fixate_idempotent⟩
  · have e1 : ¬ ((320 : Int) < wlo) := by omega
    have e2 : ¬ ((320 : Int) > whi) := by omega
    simp [gst_structure_fixate, fixate_structure, hw, gst_structure_fixate_field_nearest_int,
      gst_value_fixate_int, e1, e2]
  · have e1 : ¬ ((200 : Int) < hlo) := by omega
    have e2 : ¬ ((200 : Int) > hhi) := by omega
    simp [gst_structure_fixate, fixate_structure, hh, gst_structure_fixate_field_nearest_int,
      gst_value_fixate_int, e1, e2]
  · have e1 : ¬ (gst_util_fraction_compare 100 1 lo_n lo_d = Ordering.lt) := by
      unfold gst_util_fraction_compare
      rw [compare_lt_iff_lt]
      omega
    have e2 : ¬ (gst_util_fraction_compare 100 1 hi_n hi_d = Ordering.gt) := by
      unfold gst_util_fraction_compare
      rw [compare_gt_iff_gt]
      omega
    simp [gst_structure_fixate, fixate_structure, hf,
      gst_structure_fixate_field_nearest_fraction, gst_value_fixate_fraction, e1, e2]
  · intro h
    simp [gst_structure_fixate, fixate_structure, h]
  · intro h
    simp [gst_structure_fixate, fixate_structure, h]
  · intro h
    simp [gst_structure_fixate, fixate_structure, h]

/-- C10 amended, at the structure of the pad template. -/
theorem fixate_defaults_witness :
    ∃ out, gst_ispsrc_fixate (GstCaps.structs [template_structure]) =
        some (GstCaps.structs [out]) ∧
      out.width = some (IntValue.fixed 320) ∧
      out.height = some (IntValue.fixed 200) ∧
      out.framerate = some (FracValue.fixed 100 1) :=
  (fixate_defaults template_structure [] 1 32768 1 32768 0 1 2147483647 1 rfl (by decide)
    (by decide) rfl (by decide) (by decide) rfl (by decide) (by decide)).1

/-! ## The allocation decision -/

/-- C11, counterexample: a format change is pending and
`gst_v4l2_object_stop` fails. `gst_ispsrc_decide_allocation` returns FALSE
straight after the stop: the format is not applied to the backend and
`pending_set_fmt` is still TRUE on return. -/
theorem decide_allocation_stop_failure_keeps_pending :
    gst_ispsrc_decide_allocation { sample_src with pending_set_fmt := true }
        { sample_backend with stop_ok := false } =
      { ret := false, src := { sample_src with pending_set_fmt := true },
        calls := [Call.v4l2_object_stop] } ∧
    (gst_ispsrc_decide_allocation { sample_src with pending_set_fmt := true }
        { sample_backend with stop_ok := false }).src.pending_set_fmt = true ∧
    Call.v4l2_object_set_format ∉
      (gst_ispsrc_decide_allocation { sample_src with pending_set_fmt := true }
        { sample_backend with stop_ok := false }).calls := by
  decide

/-- C11, amended: whenever `gst_ispsrc_decide_allocation` is invoked with
`pending_set_fmt` set, its first call stops the backend. If the stop succeeds
it then emits the prepare-format signal and applies the format to the backend,
and `pending_set_fmt` is FALSE when it returns, for every outcome of the
set-format step, no other field of the element being written. If the stop
fails it returns FALSE at once: the format is not applied and the element,
`pending_set_fmt` included, is left as it was. -/
theorem decide_allocation_pending (s : GstISPSrc) (b : Backend)
    (hp : s.pending_set_fmt = true) :
    (gst_ispsrc_decide_allocation s b).calls.head? = some Call.v4l2_object_stop ∧
    (b.stop_ok = true →
      (gst_ispsrc_decide_allocation s b).src = { s with pending_set_fmt := false } ∧
      ∃ rest, (gst_ispsrc_decide_allocation s b).calls =
        Call.v4l2_object_stop :: Call.prepare_format_signal ::
          Call.v4l2_object_set_format :: rest) ∧
    (b.stop_ok = false →
      (gst_ispsrc_decide_allocation s b).ret = false ∧
      (gst_ispsrc_decide_allocation s b).src = s ∧
      (gst_ispsrc_decide_allocation s b).calls = [Call.v4l2_object_stop]) := by
  obtain ⟨o, ra, p, hb, lt, ct⟩ := s
  obtain ⟨ce, ia, tf, so, sf, pa, np, npl, al, bp, sz, vd, pd, sa, ul, us⟩ := b
  simp only at hp
  subst hp
  cases so <;> cases sf <;> cases vd <;> cases pd <;> cases sa <;>
    simp [gst_ispsrc_decide_allocation, gst_ispsrc_set_format]

/-- C11 amended, at a concrete call: a pending change and a backend on which
every call succeeds. -/
theorem decide_allocation_pending_witness :
    (gst_ispsrc_decide_allocation { sample_src with pending_set_fmt := true }
        sample_backend).src = sample_src ∧
    (gst_ispsrc_decide_allocation { sample_src with pending_set_fmt := true }
        sample_backend).calls =
      [Call.v4l2_object_stop, Call.prepare_format_signal, Call.v4l2_object_set_format,
       Call.v4l2_object_decide_allocation, Call.parent_decide_allocation,
       Call.buffer_pool_set_active] :=
  ⟨((decide_allocation_pending { sample_src with pending_set_fmt := true } sample_backend
      rfl).2.1 rfl).1, by decide⟩

/-- C12: when `gst_ispsrc_decide_allocation` is invoked with no pending format
change and the pool of the backend already active, it answers the query with
the allocator and the pool the base class holds (replacing entry 0 of the
query if there is one, adding an entry otherwise; the pool with the size of
the current format, 1 buffer at least and no maximum), then runs the decision
step of the parent class and returns its result. It issues no stop, no
set-format and no set-active call, and leaves the element, in particular
`pending_set_fmt`, `offset` and `renegotiation_adjust`, unchanged. -/
theorem decide_allocation_reuses_active_pool (s : GstISPSrc) (b : Backend)
    (hp : s.pending_set_fmt = false) (ha : b.pool_is_active = true) :
    (gst_ispsrc_decide_allocation s b).ret = b.parent_decide_ok ∧
    (gst_ispsrc_decide_allocation s b).calls =
      [if b.n_allocation_params = 0 then Call.query_add_allocation_param b.base_src_allocator
        else Call.query_set_nth_allocation_param 0 b.base_src_allocator,
       if b.n_allocation_pools = 0 then
          Call.query_add_allocation_pool b.base_src_pool b.info_size 1 0
        else Call.query_set_nth_allocation_pool 0 b.base_src_pool b.info_size 1 0,
       Call.parent_decide_allocation] ∧
    Call.v4l2_object_stop ∉ (gst_ispsrc_decide_allocation s b).calls ∧
    Call.v4l2_object_set_format ∉ (gst_ispsrc_decide_allocation s b).calls ∧
    Call.buffer_pool_set_active ∉ (gst_ispsrc_decide_allocation s b).calls ∧
    (gst_ispsrc_decide_allocation s b).src = s ∧
    (gst_ispsrc_decide_allocation s b).src.pending_set_fmt = s.pending_set_fmt ∧
    (gst_ispsrc_decide_allocation s b).src.offset = s.offset ∧
    (gst_ispsrc_decide_allocation s b).src.renegotiation_adjust = s.renegotiation_adjust := by
  have h : gst_ispsrc_decide_allocation s b =
      { ret := b.parent_decide_ok, src := s,
        calls :=
          [if b.n_allocation_params = 0 then
              Call.query_add_allocation_param b.base_src_allocator
            else Call.query_set_nth_allocation_param 0 b.base_src_allocator,
           if b.n_allocation_pools = 0 then
              Call.query_add_allocation_pool b.base_src_pool b.info_size 1 0
            else Call.query_set_nth_allocation_pool 0 b.base_src_pool b.info_size 1 0,
           Call.parent_decide_allocation] } := by
    unfold gst_ispsrc_decide_allocation
    simp only [hp, ha, Bool.false_eq_true, if_false, if_true]
    by_cases h1 : b.n_allocation_params = 0 <;> by_cases h2 : b.n_allocation_pools = 0 <;>
      simp [h1, h2]
  rw [h]
  refine ⟨rfl, rfl, ?_, ?_, ?_, rfl, rfl, rfl, rfl⟩ <;>
    · by_cases h1 : b.n_allocation_params = 0 <;> by_cases h2 : b.n_allocation_pools = 0 <;>
        simp [h1, h2]

/-- C12, at a concrete call: nothing pending, pool active, empty query. -/
theorem decide_allocation_reuses_active_pool_witness :
    (gst_ispsrc_decide_allocation sample_src sample_backend).ret = true ∧
    (gst_ispsrc_decide_allocation sample_src sample_backend).calls =
      [Call.query_add_allocation_param (some 1),
       Call.query_add_allocation_pool (some 2) 460800 1 0,
       Call.parent_decide_allocation] ∧
    (gst_ispsrc_decide_allocation sample_src sample_backend).src = sample_src := by
  have h := decide_allocation_reuses_active_pool sample_src sample_backend rfl rfl
  exact ⟨h.1, h.2.1, h.2.2.2.2.2.1⟩

/-! ## The clock a device time stamp is validated against -/

/-- The choice of `gstnow` without the unsigned subtraction. -/
theorem validation_now_eq (ts : Nat) (env : CreateEnv) (hm : env.monotonic_now < U64) :
    validation_now ts env =
      if ts > env.monotonic_now ∨ env.monotonic_now - ts > 10 * GST_SECOND then
        env.realtime_now
      else env.monotonic_now := by
  unfold validation_now
  simp only
  by_cases h : ts > env.monotonic_now
  · rw [if_pos (Or.inl h), if_pos (Or.inl h)]
  · have hle : ts ≤ env.monotonic_now := by omega
    rw [u64sub_of_le _ _ hle hm]

/-- What `gst_ispsrc_create` does with a device time stamp, given the reading
`now` it validates the time stamp against. -/
theorem create_validated_against (s : GstISPSrc) (env : CreateEnv)
    (attempts : List Attempt) (buf : GstBuffer) (now : Nat)
    (hacq : acquired attempts = some buf)
    (hbad : s.has_bad_timestamp = false)
    (hts : buf.timestamp ≠ GST_CLOCK_TIME_NONE)
    (hnow : validation_now buf.timestamp env = now) (hlt : now < U64) :
    ∃ r, gst_ispsrc_create s env attempts = some r ∧
      (r.src.has_bad_timestamp = true ↔
        (buf.timestamp > now ∨ buf.timestamp < s.last_timestamp ∨
          now - buf.timestamp > buf.timestamp)) ∧
      (r.src.has_bad_timestamp = false → r.delay = some (now - buf.timestamp)) := by
  subst hnow
  have hretry := create_retry_two buf.timestamp env.duration env s
  rw [if_pos ⟨hbad, hts⟩] at hretry
  rw [create_of_acquired s env attempts buf hacq]
  by_cases hrej : buf.timestamp > validation_now buf.timestamp env ∨
      s.last_timestamp > buf.timestamp ∨
      u64sub (validation_now buf.timestamp env) buf.timestamp > buf.timestamp
  · rw [if_pos hrej] at hretry
    refine ⟨_, create_annotate_eq s env buf _ _ hretry, ?_, ?_⟩
    · simp only [(create_offsets_time_fields _ _ _ _).1, true_iff]
      rcases hrej with h | h | h
      · exact Or.inl h
      · exact Or.inr (Or.inl h)
      · by_cases hle : buf.timestamp ≤ validation_now buf.timestamp env
        · rw [u64sub_of_le _ _ hle hlt] at h
          exact Or.inr (Or.inr h)
        · exact Or.inl (by omega)
    · intro h
      simp [(create_offsets_time_fields _ _ _ _).1] at h
  · rw [if_neg hrej] at hretry
    have hle : buf.timestamp ≤ validation_now buf.timestamp env := by
      by_contra hc
      exact hrej (Or.inl (by omega))
    have hsub := u64sub_of_le _ _ hle hlt
    refine ⟨_, create_annotate_eq s env buf _ _ hretry, ?_, ?_⟩
    · simp only [(create_offsets_time_fields _ _ _ _).1, hbad, Bool.false_eq_true, false_iff]
      rw [hsub] at hrej
      intro h
      apply hrej
      rcases h with h | h | h
      · exact Or.inl h
      · exact Or.inr (Or.inl h)
      · exact Or.inr (Or.inr h)
    · intro _
      rw [hsub]

/-- C13, counterexample: the monotonic clock reads 5 s, the wall clock 5.002 s
and the device time stamp is 5.001 s, ahead of the monotonic reading by 1 ms,
which is less than 10 s. The time stamp is validated against the wall-clock
reading, not the monotonic one, and it is accepted, with delay 1 ms, rather
than rejected as being in the future. -/
theorem timestamp_ahead_of_monotonic_uses_wall_clock :
    sample_ahead_buf.timestamp - sample_unset_clock_env.monotonic_now ≤ 10 * GST_SECOND ∧
    validation_now sample_ahead_buf.timestamp sample_unset_clock_env =
      sample_unset_clock_env.realtime_now ∧
    validation_now sample_ahead_buf.timestamp sample_unset_clock_env ≠
      sample_unset_clock_env.monotonic_now ∧
    (gst_ispsrc_create sample_src sample_unset_clock_env [good sample_ahead_buf]).map
        (fun r => (r.src.has_bad_timestamp, r.src.last_timestamp, r.delay)) =
      some (false, 5001000000, some 1000000) := by
  decide

/-- C13, amended: in the time stamp validation of `gst_ispsrc_create`, the
validation time is the monotonic reading unless the device time stamp is ahead
of that reading, by any amount, or behind it by more than 10 seconds, in which
case it is the wall-clock reading. A time stamp that is at most 10 seconds
behind the monotonic reading is validated against the monotonic reading; a
time stamp that is ahead of the monotonic reading, even by less than 10
seconds, is validated against the wall-clock reading, and is rejected as being
in the future only if it is ahead of the wall-clock reading too. -/
theorem validation_clock_choice (s : GstISPSrc) (env : CreateEnv)
    (attempts : List Attempt) (buf : GstBuffer)
    (hacq : acquired attempts = some buf)
    (hbad : s.has_bad_timestamp = false)
    (hts : buf.timestamp ≠ GST_CLOCK_TIME_NONE)
    (hm : env.monotonic_now < U64) (hr : env.realtime_now < U64) :
    (validation_now buf.timestamp env =
      if buf.timestamp > env.monotonic_now ∨
          env.monotonic_now - buf.timestamp > 10 * GST_SECOND then env.realtime_now
      else env.monotonic_now) ∧
    (buf.timestamp ≤ env.monotonic_now →
      env.monotonic_now - buf.timestamp ≤ 10 * GST_SECOND →
      ∃ r, gst_ispsrc_create s env attempts = some r ∧
        (r.src.has_bad_timestamp = true ↔
          (buf.timestamp < s.last_timestamp ∨
            env.monotonic_now - buf.timestamp > buf.timestamp)) ∧
        (r.src.has_bad_timestamp = false →
          r.delay = some (env.monotonic_now - buf.timestamp))) ∧
    ((buf.timestamp > env.monotonic_now ∨
        env.monotonic_now - buf.timestamp > 10 * GST_SECOND) →
      ∃ r, gst_ispsrc_create s env attempts = some r ∧
        (r.src.has_bad_timestamp = true ↔
          (buf.timestamp > env.realtime_now ∨ buf.timestamp < s.last_timestamp ∨
            env.realtime_now - buf.timestamp > buf.timestamp)) ∧
        (r.src.has_bad_timestamp = false →
          r.delay = some (env.realtime_now - buf.timestamp))) := by
  have hv := validation_now_eq buf.timestamp env hm
  refine ⟨hv, ?_, ?_⟩
  · intro h1 h2
    have hc : ¬ (buf.timestamp > env.monotonic_now ∨
        env.monotonic_now - buf.timestamp > 10 * GST_SECOND) := by omega
    rw [if_neg hc] at hv
    obtain ⟨r, hr1, hr2, hr3⟩ :=
      create_validated_against s env attempts buf _ hacq hbad hts hv hm
    refine ⟨r, hr1, ?_, hr3⟩
    rw [hr2]
    constructor
    · rintro (h | h | h)
      · omega
      · exact Or.inl h
      · exact Or.inr h
    · rintro (h | h)
      · exact Or.inr (Or.inl h)
      · exact Or.inr (Or.inr h)
  · intro hc
    rw [if_pos hc] at hv
    exact create_validated_against s env attempts buf _ hacq hbad hts hv hr

/-- C13 amended, at the frame of the counterexample. -/
theorem validation_clock_choice_witness :
    ∃ r, gst_ispsrc_create sample_src sample_unset_clock_env [good sample_ahead_buf] = some r ∧
      (r.src.has_bad_timestamp = true ↔
        (sample_ahead_buf.timestamp > sample_unset_clock_env.realtime_now ∨
          sample_ahead_buf.timestamp < sample_src.last_timestamp ∨
          sample_unset_clock_env.realtime_now - sample_ahead_buf.timestamp >
            sample_ahead_buf.timestamp)) ∧
      (r.src.has_bad_timestamp = false →
        r.delay = some (sample_unset_clock_env.realtime_now - sample_ahead_buf.timestamp)) :=
  (validation_clock_choice sample_src sample_unset_clock_env [good sample_ahead_buf]
    sample_ahead_buf (acquired_good sample_ahead_buf) rfl (by decide) (by decide)
    (by decide)).2.2 (Or.inl (by decide))

/-! ## The reverse scan against direct minimisation -/

theorem area_of_dims (e : GstStructure) (w h : Int) (hd : dims e = some (w, h)) :
    area e = w * h := by
  simp [area, hd]

theorem direct_min_area_le (tw th : Int) :
    ∀ (l : List GstStructure) (m : Int), direct_min_area tw th l = some m →
      ∀ e ∈ l, qualifies tw th e = true → m ≤ area e := by
  intro l
  induction l with
  | nil => intro m _ e he; simp at he
  | cons a rest ih =>
    intro m hm e he hq
    simp only [direct_min_area] at hm
    by_cases ha : qualifies tw th a = true
    · rw [if_pos ha] at hm
      cases hr : direct_min_area tw th rest with
      | none =>
        rw [hr] at hm
        simp only [Option.some.injEq] at hm
        rcases List.mem_cons.1 he with rfl | hmem
        · omega
        · have hnone : ∀ (l2 : List GstStructure), direct_min_area tw th l2 = none →
              ∀ x ∈ l2, qualifies tw th x = true → False := by
            intro l2
            induction l2 with
            | nil => intro _ x hx; simp at hx
            | cons b r2 ih2 =>
              intro hn x hx hxq
              simp only [direct_min_area] at hn
              by_cases hb : qualifies tw th b = true
              · rw [if_pos hb] at hn
                cases hr2 : direct_min_area tw th r2 <;> rw [hr2] at hn <;> simp at hn
              · rw [if_neg hb] at hn
                rcases List.mem_cons.1 hx with rfl | hx2
                · exact hb hxq
                · exact ih2 hn x hx2 hxq
          exact absurd (hnone rest hr e hmem hq) id
      | some m2 =>
        rw [hr] at hm
        simp only [Option.some.injEq] at hm
        rcases List.mem_cons.1 he with rfl | hmem
        · rw [← hm]; exact min_le_left _ _
        · have := ih m2 hr e hmem hq
          rw [← hm]
          exact le_trans (min_le_right _ _) this
    · rw [if_neg ha] at hm
      rcases List.mem_cons.1 he with rfl | hmem
      · exact absurd hq ha
      · exact ih m hm e hmem hq

theorem direct_min_area_attained (tw th : Int) :
    ∀ (l : List GstStructure) (m : Int), direct_min_area tw th l = some m →
      ∃ e ∈ l, qualifies tw th e = true ∧ area e = m := by
  intro l
  induction l with
  | nil => intro m hm; simp [direct_min_area] at hm
  | cons a rest ih =>
    intro m hm
    simp only [direct_min_area] at hm
    by_cases ha : qualifies tw th a = true
    · rw [if_pos ha] at hm
      cases hr : direct_min_area tw th rest with
      | none =>
        rw [hr] at hm
        simp only [Option.some.injEq] at hm
        exact ⟨a, List.mem_cons_self _ _, ha, hm⟩
      | some m2 =>
        rw [hr] at hm
        simp only [Option.some.injEq] at hm
        by_cases hle : area a ≤ m2
        · rw [min_eq_left hle] at hm
          exact ⟨a, List.mem_cons_self _ _, ha, hm⟩
        · rw [min_eq_right (by omega)] at hm
          obtain ⟨e, he, hq, hae⟩ := ih m2 hr
          exact ⟨e, List.mem_cons_of_mem _ he, hq, by rw [hae, hm]⟩
    · rw [if_neg ha] at hm
      obtain ⟨e, he, hq, hae⟩ := ih m hm
      exact ⟨e, List.mem_cons_of_mem _ he, hq, hae⟩

theorem direct_min_area_exists (tw th : Int) :
    ∀ (l : List GstStructure), (∃ e ∈ l, qualifies tw th e = true) →
      ∃ m, direct_min_area tw th l = some m := by
  intro l
  induction l with
  | nil => rintro ⟨e, he, _⟩; simp at he
  | cons a rest ih =>
    rintro ⟨e, he, hq⟩
    simp only [direct_min_area]
    by_cases ha : qualifies tw th a = true
    · rw [if_pos ha]
      cases direct_min_area tw th rest with
      | none => exact ⟨_, rfl⟩
      | some m2 => exact ⟨_, rfl⟩
    · rw [if_neg ha]
      rcases List.mem_cons.1 he with rfl | hmem
      · exact absurd hq ha
      · exact ih ⟨e, hmem, hq⟩

/-- An entry of least area among the qualifying ones has the area direct
minimisation computes. -/
theorem direct_min_area_eq (tw th : Int) (l : List GstStructure) (c : GstStructure)
    (hc : c ∈ l) (hq : qualifies tw th c = true)
    (hmin : ∀ e ∈ l, qualifies tw th e = true → area c ≤ area e) :
    direct_min_area tw th l = some (area c) := by
  obtain ⟨m, hm⟩ := direct_min_area_exists tw th l ⟨c, hc, hq⟩
  have h1 := direct_min_area_le tw th l m hm c hc hq
  obtain ⟨e, he, heq, hae⟩ := direct_min_area_attained tw th l m hm
  have h2 := hmin e he heq
  rw [hm]
  congr 1
  omega

theorem ordered_area (l : List GstStructure)
    (hord : l.Pairwise (fun a b => area b ≤ area a)) (i j : Nat) (ei ej : GstStructure)
    (hij : i < j) (hi : l[i]? = some ei) (hj : l[j]? = some ej) : area ej ≤ area ei := by
  obtain ⟨h1, rfl⟩ := List.getElem?_eq_some.1 hi
  obtain ⟨h2, rfl⟩ := List.getElem?_eq_some.1 hj
  exact List.pairwise_iff_getElem.1 hord i j h1 h2 hij

theorem scan_body_area_inv (l : List GstStructure) (tw th : Int) (k : Nat) (st : ScanState)
    (hty : ∀ e ∈ l, gintSized e) (hnn : ∀ e ∈ l, non_negative_sized e)
    (hord : l.Pairwise (fun a b => area b ≤ area a))
    (hinv : AreaInv l tw th (k + 1) st) :
    AreaInv l tw th k (scan_body (GstCaps.structs l) tw th k st) := by
  rw [scan_body_eq]
  cases hk : l[k]? with
  | none =>
    simp only
    rcases hinv with ⟨h0, hnq⟩ | ⟨e, hbest, hkb, hd, htw, hth, hmin⟩
    · left
      refine ⟨h0, fun j e hj hje => ?_⟩
      rcases Nat.eq_or_lt_of_le hj with h | h
      · subst h; rw [hk] at hje; cases hje
      · exact hnq j e h hje
    · right
      refine ⟨e, hbest, by omega, hd, htw, hth, fun j e2 hj hje hq2 => ?_⟩
      rcases Nat.eq_or_lt_of_le hj with hjk | hjk
      · subst hjk; rw [hk] at hje; cases hje
      · exact hmin j e2 hjk hje hq2
  | some ek =>
    simp only
    have hmem : ek ∈ l := List.getElem?_mem hk
    cases hdk : dims ek with
    | none =>
      simp only
      have hnot : qualifies tw th ek = false := by simp [qualifies, hdk]
      rcases hinv with ⟨h0, hnq⟩ | ⟨e, hbest, hkb, hd, htw, hth, hmin⟩
      · left
        refine ⟨h0, fun j e hj hje => ?_⟩
        rcases Nat.eq_or_lt_of_le hj with h | h
        · subst h
          rw [hk] at hje
          cases hje
          exact hnot
        · exact hnq j e h hje
      · right
        refine ⟨e, hbest, by omega, hd, htw, hth, fun j e2 hj hje hq2 => ?_⟩
        rcases Nat.eq_or_lt_of_le hj with hjk | hjk
        · subst hjk
          rw [hk] at hje
          cases hje
          rw [hnot] at hq2
          cases hq2
        · exact hmin j e2 hjk hje hq2
    | some p =>
      obtain ⟨wk, hk2⟩ := p
      simp only
      by_cases hc : wk ≥ tw ∧ wk ≤ st.width ∧ hk2 ≥ th ∧ hk2 ≤ st.height
      · rw [if_pos hc]
        obtain ⟨c1, c2, c3, c4⟩ := hc
        right
        refine ⟨ek, hk, le_refl k, hdk, c1, c3, fun j e2 hj hje hq2 => ?_⟩
        rcases Nat.eq_or_lt_of_le hj with hjk | hjk
        · subst hjk
          rw [hk] at hje
          cases hje
          exact le_refl _
        · rcases hinv with ⟨h0, hnq⟩ | ⟨e, hbest, hkb, hd, htw, hth, hmin⟩
          · rw [hnq j e2 hjk hje] at hq2
            cases hq2
          · obtain ⟨w0, h0, hd0, hw0, hh0⟩ := hnn ek hmem
            rw [hdk] at hd0
            cases hd0
            have hle : area ek ≤ area e := by
              rw [area_of_dims ek wk hk2 hdk, area_of_dims e _ _ hd]
              exact mul_le_mul c2 c4 hh0 (le_trans hw0 c2)
            exact le_trans hle (hmin j e2 hjk hje hq2)
      · rw [if_neg hc]
        rcases hinv with ⟨h0, hnq⟩ | ⟨e, hbest, hkb, hd, htw, hth, hmin⟩
        · left
          refine ⟨h0, fun j e hj hje => ?_⟩
          rcases Nat.eq_or_lt_of_le hj with h | h
          · subst h
            rw [hk] at hje
            cases hje
            have hg := hty ek hmem wk hk2 hdk
            rw [h0] at hc
            simp only at hc
            cases hq : qualifies tw th ek with
            | false => rfl
            | true =>
              obtain ⟨w, h, hd2, h1, h2⟩ := (qualifies_iff tw th ek).1 hq
              rw [hdk] at hd2
              cases hd2
              exact absurd ⟨h1, hg.1, h2, hg.2⟩ hc
          · exact hnq j e h hje
        · right
          refine ⟨e, hbest, by omega, hd, htw, hth, fun j e2 hj hje hq2 => ?_⟩
          rcases Nat.eq_or_lt_of_le hj with hjk | hjk
          · subst hjk
            rw [hk] at hje
            cases hje
            exact ordered_area l hord k st.best ek e (by omega) hk hbest
          · exact hmin j e2 hjk hje hq2

theorem scan_loop_area_inv (l : List GstStructure) (tw th : Int)
    (hty : ∀ e ∈ l, gintSized e) (hnn : ∀ e ∈ l, non_negative_sized e)
    (hord : l.Pairwise (fun a b => area b ≤ area a)) :
    ∀ (k : Nat) (st : ScanState), AreaInv l tw th k st →
      AreaInv l tw th 0 (scan_loop (GstCaps.structs l) tw th k st) := by
  intro k
  induction k with
  | zero => intro st h; simpa [scan_loop] using h
  | succ n ih =>
    intro st h
    rw [scan_loop]
    exact ih _ (scan_body_area_inv l tw th n st hty hnn hord h)

/-- C14: if the intersection entries all carry non-negative integer width and
height and are ordered by non-increasing width × height, then for every peer
first preference `(tw, th)` for which some entry has width ≥ `tw` and height ≥
`th`, the reverse scan of `gst_ispsrc_negotiate` chooses a qualifying entry
whose width × height is minimal among the qualifying entries: its area is the
one direct minimisation over the qualifying entries gives. -/
theorem reverse_scan_agrees_with_direct_minimum (peercaps : GstCaps)
    (l : List GstStructure) (tw th : Int)
    (hty : ∀ e ∈ l, gintSized e) (hnn : ∀ e ∈ l, non_negative_sized e)
    (hord : l.Pairwise (fun a b => area b ≤ area a))
    (hp : peer_preference peercaps = some (tw, th))
    (hq : ∃ e ∈ l, qualifies tw th e = true) :
    ∃ c, l[negotiate_best peercaps (GstCaps.structs l)]? = some c ∧
      qualifies tw th c = true ∧
      (∀ e ∈ l, qualifies tw th e = true → area c ≤ area e) ∧
      direct_min_area tw th l = some (area c) ∧
      (1 < l.length → negotiate_select peercaps (GstCaps.structs l) = GstCaps.structs [c]) := by
  have hinit : AreaInv l tw th l.length { width := G_MAXINT, height := G_MAXINT, best := 0 } := by
    left
    refine ⟨rfl, fun j e hj hje => ?_⟩
    rw [List.getElem?_eq_none hj] at hje
    cases hje
  have hfin := scan_loop_area_inv l tw th hty hnn hord l.length _ hinit
  have hbest : negotiate_best peercaps (GstCaps.structs l) =
      (scan_loop (GstCaps.structs l) tw th l.length
        { width := G_MAXINT, height := G_MAXINT, best := 0 }).best := by
    rw [negotiate_best_eq, hp]
    rfl
  rcases hfin with ⟨_, hnq⟩ | ⟨c, hc, _, hd, htw, hth, hmin⟩
  · obtain ⟨e, he, heq⟩ := hq
    obtain ⟨n, hn⟩ := List.mem_iff_getElem?.1 he
    rw [hnq n e (Nat.zero_le n) hn] at heq
    cases heq
  · rw [← hbest] at hc
    have hcq : qualifies tw th c = true := (qualifies_iff tw th c).2 ⟨_, _, hd, htw, hth⟩
    have hall : ∀ e ∈ l, qualifies tw th e = true → area c ≤ area e := by
      intro e he heq
      obtain ⟨n, hn⟩ := List.mem_iff_getElem?.1 he
      exact hmin n e (Nat.zero_le n) hn heq
    refine ⟨c, hc, hcq, hall, direct_min_area_eq tw th l c (List.getElem?_mem hc) hcq hall, ?_⟩
    intro hsize
    rw [negotiate_select_many peercaps l hsize, hc]
    rfl

/-- C14, at a concrete intersection ordered by non-increasing area, with a
peer that prefers 640×480. -/
theorem reverse_scan_agrees_with_direct_minimum_witness :
    ∃ c, sample_sorted_caps[negotiate_best (GstCaps.structs [sized 640 480])
          (GstCaps.structs sample_sorted_caps)]? = some c ∧
      qualifies 640 480 c = true ∧
      (∀ e ∈ sample_sorted_caps, qualifies 640 480 e = true → area c ≤ area e) ∧
      direct_min_area 640 480 sample_sorted_caps = some (area c) ∧
      (1 < sample_sorted_caps.length →
        negotiate_select (GstCaps.structs [sized 640 480])
          (GstCaps.structs sample_sorted_caps) = GstCaps.structs [c]) :=
  reverse_scan_agrees_with_direct_minimum (GstCaps.structs [sized 640 480])
    sample_sorted_caps 640 480
    (by
      intro e he w h hd
      simp only [sample_sorted_caps, List.mem_cons, List.mem_singleton, List.not_mem_nil,
        or_false] at he
      rcases he with rfl | rfl | rfl | rfl <;>
        · simp only [dims, sized, gst_structure_get_int, Option.some.injEq,
            Prod.mk.injEq] at hd
          obtain ⟨rfl, rfl⟩ := hd
          decide)
    (by
      intro e he
      simp only [sample_sorted_caps, List.mem_cons, List.mem_singleton, List.not_mem_nil,
        or_false] at he
      rcases he with rfl | rfl | rfl | rfl
      · exact ⟨1920, 1080, rfl, by decide, by decide⟩
      · exact ⟨1280, 720, rfl, by decide, by decide⟩
      · exact ⟨640, 480, rfl, by decide, by decide⟩
      · exact ⟨320, 240, rfl, by decide, by decide⟩)
    (by decide) (by rfl) ⟨sized 640 480, by simp [sample_sorted_caps], by decide⟩

end ISPSrc
